import Mathlib

/-!
# Shallow embedding of the sudoku-rater core (src/sudoku.rs)

This file embeds the data model and the operations of the Rust sources
into Lean and proves the specification claims about them.

Modelling conventions:

* `u8` digits become `Nat` (all values involved stay far below 256, so no
  wrap-around can occur; the only arithmetic on digits is `digit + 48`
  when serializing, bounded by 57).
* The 9×9 arrays `board`, `original_board` become total functions
  `Nat → Nat → Nat`; the Rust code only ever indexes them with `0..=8`.
* Each cell's `HashSet<u8>` of candidates becomes a `List Nat`.  A Rust
  `HashSet` is a finite set with an *unspecified, run-dependent* iteration
  order; the list records one concrete iteration order, so set-level
  operations (`contains`, equality, `len`) are defined set-insensitively
  where the Rust code uses set operations, while loops `for num in set`
  traverse the list in its order.  States produced by the embedded
  `calc_all_notes` list candidates in ascending order; theorems that are
  sensitive to iteration order quantify over it explicitly.
* `HashMap<Strategy, usize>` (the rating ledger) becomes a total function
  `Strategy → Nat` defaulting to 0, matching `entry(..).and_modify(..).or_insert(n)`.
* `assert!`/`assert_eq!` failures (Rust panics) are modelled by `Option`:
  a function containing an assertion returns `none` exactly when the
  assertion would fail.
* Strings become `List Char`; `eprintln!` diagnostics are modelled by the
  boolean predicate that guards them.
-/

namespace SudokuRater

/-- Strategy tags, from `enum Strategy` in src/sudoku.rs. -/
inductive Strategy where
  | None
  | LastDigit
  | ObviousSingle
  | HiddenSingle
  | ObviousPair
  | HiddenPair
  | PointingPair
  | XWing
deriving DecidableEq, Repr

/-- Difficulty weights, from `Strategy::difficulty`. -/
def Strategy.difficulty : Strategy → Int
  | .None => 0
  | .LastDigit => 4
  | .ObviousSingle => 5
  | .HiddenSingle => 14
  | .PointingPair => 50
  | .ObviousPair => 60
  | .HiddenPair => 70
  | .XWing => 140

/-- `struct Candidate`: one entry of the candidate grid. -/
structure Candidate where
  row : Nat
  col : Nat
  num : Nat
deriving DecidableEq, Repr

/-- `struct Cell`: a position together with a digit. -/
structure Cell where
  row : Nat
  col : Nat
  num : Nat
deriving DecidableEq, Repr

/-- `struct RemovalResult`: the proposed mutation of one detector call.
`candidates_about_to_be_removed` is a `HashSet<Candidate>` in Rust; we keep
it as a duplicate-free list (insertion happens through `insertC`). -/
structure RemovalResult where
  sets_cell : Option Cell
  cells_affected : List Cell
  candidates_affected : List Candidate
  candidates_about_to_be_removed : List Candidate
deriving DecidableEq, Repr

/-- `RemovalResult::empty`. -/
def RemovalResult.empty : RemovalResult :=
  { sets_cell := none, cells_affected := [], candidates_affected := [],
    candidates_about_to_be_removed := [] }

/-- `RemovalResult::will_remove_candidates`. -/
def RemovalResult.will_remove_candidates (r : RemovalResult) : Bool :=
  !r.candidates_about_to_be_removed.isEmpty

/-- `HashSet::insert` on the removal set: add the candidate unless present. -/
def insertC (l : List Candidate) (x : Candidate) : List Candidate :=
  if x ∈ l then l else l ++ [x]

/-- `struct StrategyResult`. -/
structure StrategyResult where
  strategy : Strategy
  removals : RemovalResult
deriving DecidableEq, Repr

/-- `StrategyResult::empty`. -/
def StrategyResult.empty : StrategyResult :=
  { strategy := Strategy.None, removals := RemovalResult.empty }

/-- `struct Resolution`. -/
structure Resolution where
  nums_removed : Nat
  strategy : Strategy
deriving DecidableEq, Repr

/-- `struct Sudoku`. -/
structure Sudoku where
  board : Nat → Nat → Nat
  original_board : Nat → Nat → Nat
  candidates : Nat → Nat → List Nat
  rating : Strategy → Nat

/-- `Sudoku::new`. -/
def Sudoku.new : Sudoku :=
  { board := fun _ _ => 0, original_board := fun _ _ => 0,
    candidates := fun _ _ => [], rating := fun _ => 0 }

/-- Point update of a doubly indexed function (one array cell assignment). -/
def update2 {α : Type} (f : Nat → Nat → α) (r c : Nat) (v : α) : Nat → Nat → α :=
  fun i j => if i = r ∧ j = c then v else f i j

/-- `0..9`, the index range of rows, columns and boxes. -/
def range9 : List Nat := List.range 9

/-- `1..=9`, the playing digits (`ALL_DIGITS` keeps the same elements). -/
def nums1to9 : List Nat := [1, 2, 3, 4, 5, 6, 7, 8, 9]

namespace Sudoku

/-- `Sudoku::unsolved`: some cell of the board is 0. -/
def unsolved (s : Sudoku) : Bool :=
  range9.any fun row => range9.any fun col => s.board row col == 0

/-- `Sudoku::is_solved`. -/
def is_solved (s : Sudoku) : Bool := !s.unsolved

/-- `Sudoku::serialized`: the board, row major, as 81 digit characters. -/
def serialized (s : Sudoku) : List Char :=
  range9.flatMap fun row => range9.map fun col => Char.ofNat (s.board row col + 48)

/-- `Sudoku::original_board` (the accessor): the snapshot, serialized. -/
def original_board_string (s : Sudoku) : List Char :=
  range9.flatMap fun row => range9.map fun col => Char.ofNat (s.original_board row col + 48)

/-- `Sudoku::original_empty_cells`. -/
def original_empty_cells (s : Sudoku) : Nat :=
  (range9.flatMap fun row => range9.map fun col => s.original_board row col).countP (· == 0)

/-- The digits extracted from an input string by `from_string`:
`chars().filter_map(|c| c.to_digit(10)).take(81)`.  `to_digit(10)` accepts
exactly the ASCII digits. -/
def digitsOf (cs : List Char) : List Nat :=
  (cs.filterMap fun c => if c.isDigit then some (c.toNat - 48) else none).take 81

/-- The check guarding the `eprintln!` diagnostic in `from_string`:
the input holds exactly 81 ASCII digit characters. -/
def from_string_valid (cs : List Char) : Bool :=
  (cs.filter fun c => c.isDigit).length == 81

/-- The write loop of `from_string`: digit `i` of the list goes to
`(i / 9, i % 9)` of the given array. -/
def writeDigits (f : Nat → Nat → Nat) : List Nat → Nat → (Nat → Nat → Nat)
  | [], _ => f
  | d :: ds, i => writeDigits (update2 f (i / 9) (i % 9) d) ds (i + 1)

/-- `Sudoku::from_string`: reset `original_board` to zeros, then write the
extracted digits row-major into both `board` and `original_board`.
The function never fails; a digit count other than 81 only triggers the
`eprintln!` diagnostic (see `from_string_valid`). -/
def from_string (s : Sudoku) (cs : List Char) : Sudoku :=
  let ds := digitsOf cs
  { s with
    board := writeDigits s.board ds 0
    original_board := writeDigits (fun _ _ => 0) ds 0 }

/-- `Sudoku::restore`: re-load from the serialized original board. -/
def restore (s : Sudoku) : Sudoku :=
  s.from_string s.original_board_string

end Sudoku

/-- The sub-range `a..b` of `usize` values. -/
def rangeFT (a b : Nat) : List Nat := (List.range (b - a)).map fun k => a + k

/-- The 81 board positions in row-major order (`for row { for col }`). -/
def cellsRowMajor : List (Nat × Nat) :=
  range9.flatMap fun r => range9.map fun c => (r, c)

/-- The 81 board positions in column-major order (`for col { for row }`). -/
def cellsColMajor : List (Nat × Nat) :=
  range9.flatMap fun c => range9.map fun r => (r, c)

/-- The nine cells of the box whose top-left corner is `(start_row, start_col)`,
in the `for i { for j }` scan order. -/
def boxCellsFrom (start_row start_col : Nat) : List (Nat × Nat) :=
  (List.range 3).flatMap fun i => (List.range 3).map fun j =>
    (start_row + i, start_col + j)

/-- Set equality of two candidate lists (`HashSet<u8>` equality in Rust). -/
def listSetEq (a b : List Nat) : Bool :=
  (a.all fun n => b.contains n) && (b.all fun n => a.contains n)

namespace Sudoku

/-- `calc_nums_in_row`: digits placed in a row.  (A `HashSet<u8>` in Rust;
here a list used only through membership, so duplicates are harmless.) -/
def calc_nums_in_row (s : Sudoku) (row : Nat) : List Nat :=
  range9.filterMap fun col =>
    if s.board row col ≠ 0 then some (s.board row col) else none

/-- `calc_nums_in_col`. -/
def calc_nums_in_col (s : Sudoku) (col : Nat) : List Nat :=
  range9.filterMap fun row =>
    if s.board row col ≠ 0 then some (s.board row col) else none

/-- `calc_nums_in_box`. -/
def calc_nums_in_box (s : Sudoku) (box_index : Nat) : List Nat :=
  (boxCellsFrom (3 * (box_index / 3)) (3 * (box_index % 3))).filterMap fun p =>
    if s.board p.1 p.2 ≠ 0 then some (s.board p.1 p.2) else none

/-- `calc_all_notes`: for every empty cell of the 9×9 grid, the candidate set
becomes the playing digits not present in the row, column or box; all other
cells keep their previous notes.  The Rust `HashSet` has no canonical
iteration order; this embedding lists the set in ascending digit order. -/
def calc_all_notes (s : Sudoku) : Sudoku :=
  { s with candidates := fun row col =>
      if row < 9 ∧ col < 9 ∧ s.board row col = 0 then
        nums1to9.filter fun num =>
          !(s.calc_nums_in_row row).contains num &&
          !(s.calc_nums_in_col col).contains num &&
          !(s.calc_nums_in_box (3 * (row / 3) + col / 3)).contains num
      else s.candidates row col }

/-- `collect_candidates_in_row`. -/
def collect_candidates_in_row (s : Sudoku) (nums : List Nat) (row : Nat) :
    RemovalResult :=
  { RemovalResult.empty with candidates_about_to_be_removed :=
      (range9.foldl (fun acc col =>
        nums.foldl (fun acc num =>
          if (s.candidates row col).contains num then insertC acc ⟨row, col, num⟩
          else acc) acc) []) }

/-- `collect_candidates_in_col`. -/
def collect_candidates_in_col (s : Sudoku) (nums : List Nat) (col : Nat) :
    RemovalResult :=
  { RemovalResult.empty with candidates_about_to_be_removed :=
      (range9.foldl (fun acc row =>
        nums.foldl (fun acc num =>
          if (s.candidates row col).contains num then insertC acc ⟨row, col, num⟩
          else acc) acc) []) }

/-- `collect_candidates_in_box`. -/
def collect_candidates_in_box (s : Sudoku) (nums : List Nat) (row col : Nat) :
    RemovalResult :=
  { RemovalResult.empty with candidates_about_to_be_removed :=
      ((boxCellsFrom (3 * (row / 3)) (3 * (col / 3))).foldl (fun acc p =>
        nums.foldl (fun acc num =>
          if (s.candidates p.1 p.2).contains num then insertC acc ⟨p.1, p.2, num⟩
          else acc) acc) []) }

/-- `HashSet::extend`: insert the elements of the second list in order. -/
def extendC (l l2 : List Candidate) : List Candidate := l2.foldl insertC l

/-- `collect_candidates`: union of the row, column and box collections. -/
def collect_candidates (s : Sudoku) (nums : List Nat) (row col : Nat) :
    RemovalResult :=
  let remove_in_row := s.collect_candidates_in_row nums row
  let remove_in_col := s.collect_candidates_in_col nums col
  let remove_in_box := s.collect_candidates_in_box nums row col
  { RemovalResult.empty with
    candidates_about_to_be_removed :=
      extendC (extendC (extendC [] remove_in_row.candidates_about_to_be_removed)
        remove_in_col.candidates_about_to_be_removed)
        remove_in_box.candidates_about_to_be_removed
    candidates_affected :=
      remove_in_row.candidates_affected ++ remove_in_col.candidates_affected ++
        remove_in_box.candidates_affected }

/-- `collect_set_num`: everything invalidated by placing `num` at `(row, col)`:
the peers' occurrences of `num`, the cell's own entry for `num`, and the other
notes of the cell. -/
def collect_set_num (s : Sudoku) (num row col : Nat) : RemovalResult :=
  let cell : Cell := ⟨row, col, num⟩
  let removal_result := s.collect_candidates [num] row col
  { sets_cell := some cell
    cells_affected := [cell]
    candidates_affected := [⟨row, col, num⟩]
    candidates_about_to_be_removed :=
      (s.candidates row col).foldl
        (fun acc n => if n ≠ num then insertC acc ⟨row, col, n⟩ else acc)
        (insertC removal_result.candidates_about_to_be_removed ⟨row, col, num⟩) }

/-! ### LastDigit -/

/-- Row scan of `find_last_digit_in_rows`.  The `assert_eq!(missing_digits.len(), 1)`
is modelled by returning `none` (a panic) when it fails. -/
def find_last_digit_in_rows_aux (s : Sudoku) : List Nat → Option RemovalResult
  | [] => some RemovalResult.empty
  | row :: rest =>
    let empty_cells := range9.filter fun col => s.board row col == 0
    if empty_cells.length ≠ 1 then find_last_digit_in_rows_aux s rest
    else
      let missing_digits := nums1to9.filter fun d => !(s.calc_nums_in_row row).contains d
      if missing_digits.length = 1 then
        some (s.collect_set_num (missing_digits.headD 0) row (empty_cells.headD 0))
      else none

/-- `find_last_digit_in_rows`. -/
def find_last_digit_in_rows (s : Sudoku) : Option RemovalResult :=
  find_last_digit_in_rows_aux s range9

/-- Column scan of `find_last_digit_in_cols`, with the same assertion. -/
def find_last_digit_in_cols_aux (s : Sudoku) : List Nat → Option RemovalResult
  | [] => some RemovalResult.empty
  | col :: rest =>
    let empty_cells := range9.filter fun row => s.board row col == 0
    if empty_cells.length ≠ 1 then find_last_digit_in_cols_aux s rest
    else
      let missing_digits := nums1to9.filter fun d => !(s.calc_nums_in_col col).contains d
      if missing_digits.length = 1 then
        some (s.collect_set_num (missing_digits.headD 0) (empty_cells.headD 0) col)
      else none

/-- `find_last_digit_in_cols`. -/
def find_last_digit_in_cols (s : Sudoku) : Option RemovalResult :=
  find_last_digit_in_cols_aux s range9

/-- Box scan of `find_last_digit_in_boxes`.  The Rust search loop breaks at
the first empty cell, so its `count == 1` test really means "the box has at
least one empty cell"; the `missing_digits.len() != 1` case is a `continue`,
not an assertion, so this function is total. -/
def find_last_digit_in_boxes_aux (s : Sudoku) : List Nat → RemovalResult
  | [] => RemovalResult.empty
  | box_index :: rest =>
    match (boxCellsFrom (3 * (box_index / 3)) (3 * (box_index % 3))).find?
        (fun p => s.board p.1 p.2 == 0) with
    | none => find_last_digit_in_boxes_aux s rest
    | some p =>
      let missing_digits := nums1to9.filter fun d => !(s.calc_nums_in_box box_index).contains d
      if missing_digits.length ≠ 1 then find_last_digit_in_boxes_aux s rest
      else s.collect_set_num (missing_digits.headD 0) p.1 p.2

/-- `find_last_digit_in_boxes`. -/
def find_last_digit_in_boxes (s : Sudoku) : RemovalResult :=
  find_last_digit_in_boxes_aux s range9

/-- `find_last_digit`: rows, then columns, then boxes; `none` is a panic. -/
def find_last_digit (s : Sudoku) : Option RemovalResult :=
  match s.find_last_digit_in_rows with
  | none => none
  | some r =>
    if r.will_remove_candidates then some r
    else
      match s.find_last_digit_in_cols with
      | none => none
      | some r2 =>
        if r2.will_remove_candidates then some r2
        else some s.find_last_digit_in_boxes

/-! ### ObviousSingle -/

/-- Scan of `find_obvious_single`; `none` models the failing
`assert_eq!(self.board[row][col], EMPTY)`. -/
def find_obvious_single_aux (s : Sudoku) : List (Nat × Nat) → Option RemovalResult
  | [] => some RemovalResult.empty
  | (row, col) :: rest =>
    if (s.candidates row col).length ≠ 1 then find_obvious_single_aux s rest
    else if s.board row col == 0 then
      some (s.collect_set_num ((s.candidates row col).headD 0) row col)
    else none

/-- `find_obvious_single` (the `StrategyResult` wrapper is added by `next_step`). -/
def find_obvious_single (s : Sudoku) : Option RemovalResult :=
  find_obvious_single_aux s cellsRowMajor

/-! ### HiddenSingle -/

/-- Row scan of `find_hidden_single_row`.  For each empty cell the Rust code
iterates `for num in candidates[row][col]` in `HashSet` order and returns at
the first digit found nowhere else in the row; here the cell's list order is
that iteration order. -/
def find_hidden_single_row_aux (s : Sudoku) : List (Nat × Nat) → RemovalResult
  | [] => RemovalResult.empty
  | (row, col) :: rest =>
    if s.board row col > 0 then find_hidden_single_row_aux s rest
    else
      match (s.candidates row col).find? (fun num =>
          !(range9.any fun i => i != col && (s.candidates row i).contains num)) with
      | some num => s.collect_set_num num row col
      | none => find_hidden_single_row_aux s rest

/-- `find_hidden_single_row`. -/
def find_hidden_single_row (s : Sudoku) : RemovalResult :=
  find_hidden_single_row_aux s cellsRowMajor

/-- Column scan of `find_hidden_single_col`. -/
def find_hidden_single_col_aux (s : Sudoku) : List (Nat × Nat) → RemovalResult
  | [] => RemovalResult.empty
  | (row, col) :: rest =>
    if s.board row col ≠ 0 then find_hidden_single_col_aux s rest
    else
      match (s.candidates row col).find? (fun num =>
          !(range9.any fun i => i != row && (s.candidates i col).contains num)) with
      | some num => s.collect_set_num num row col
      | none => find_hidden_single_col_aux s rest

/-- `find_hidden_single_col`. -/
def find_hidden_single_col (s : Sudoku) : RemovalResult :=
  find_hidden_single_col_aux s cellsColMajor

/-- Box-scan cells of `find_hidden_single_box`: boxes in
`box_row`-major order, cells within a box in `i, j` order, each cell paired
with its box origin for the `'box_check` inner loop. -/
def boxScanCells : List (Nat × Nat × Nat × Nat) :=
  (List.range 3).flatMap fun box_row => (List.range 3).flatMap fun box_col =>
    (boxCellsFrom (box_row * 3) (box_col * 3)).map fun p =>
      (box_row * 3, box_col * 3, p.1, p.2)

/-- Box scan of `find_hidden_single_box`. -/
def find_hidden_single_box_aux (s : Sudoku) :
    List (Nat × Nat × Nat × Nat) → RemovalResult
  | [] => RemovalResult.empty
  | (start_row, start_col, row, col) :: rest =>
    if s.board row col ≠ 0 then find_hidden_single_box_aux s rest
    else
      match (s.candidates row col).find? (fun num =>
          !((boxCellsFrom start_row start_col).any fun q =>
            (q.1 != row || q.2 != col) && (s.candidates q.1 q.2).contains num)) with
      | some num => s.collect_set_num num row col
      | none => find_hidden_single_box_aux s rest

/-- `find_hidden_single_box`. -/
def find_hidden_single_box (s : Sudoku) : RemovalResult :=
  find_hidden_single_box_aux s boxScanCells

/-- `find_hidden_single`: boxes first, then rows, then columns. -/
def find_hidden_single (s : Sudoku) : RemovalResult :=
  let box_result := s.find_hidden_single_box
  if box_result.will_remove_candidates then box_result
  else
    let row_result := s.find_hidden_single_row
    if row_result.will_remove_candidates then row_result
    else
      let col_result := s.find_hidden_single_col
      if col_result.will_remove_candidates then col_result
      else RemovalResult.empty

/-! ### PointingPair

The Rust `find_pointing_pair_in_rows`/`_in_cols` push the box cells holding
the digit into the diagnostic `candidates_affected`/`cells_affected` vectors
and then test `will_remove_candidates()`, which inspects the untouched
`candidates_about_to_be_removed` set.  The embedding reproduces this
faithfully, early-return check included (the boolean in the auxiliary
functions signals that early return). -/

/-- The inner `for c in (box_col * 3)..(box_col * 3 + 3)` push loop of
`find_pointing_pair_in_rows`. -/
def pp_rows_push (s : Sudoku) (num r box_col : Nat) (result : RemovalResult) :
    RemovalResult :=
  (List.range 3).foldl (fun res k =>
    let c := box_col * 3 + k
    if (s.candidates r c).contains num then
      { res with
        candidates_affected := res.candidates_affected ++ [⟨r, c, num⟩]
        cells_affected := res.cells_affected ++ [⟨r, c, num⟩] }
    else res) result

/-- The `for r in start_row..start_row + 3` loop of
`find_pointing_pair_in_rows`, with its early return. -/
def pp_rows_inner (s : Sudoku) (num row box_col : Nat) :
    List Nat → RemovalResult → RemovalResult × Bool
  | [], result => (result, false)
  | r :: rest, result =>
    if r = row then pp_rows_inner s num row box_col rest result
    else
      let result := pp_rows_push s num r box_col result
      if result.will_remove_candidates then (result, true)
      else pp_rows_inner s num row box_col rest result

/-- One `(row, num)` iteration of `find_pointing_pair_in_rows`. -/
def pp_rows_step (s : Sudoku) (row num : Nat) (result : RemovalResult) :
    RemovalResult × Bool :=
  let cells_with_num := range9.filter fun col => (s.candidates row col).contains num
  if cells_with_num.length ≠ 2 then (result, false)
  else
    let col1 := cells_with_num.headD 0
    let col2 := cells_with_num.getD 1 0
    if col1 / 3 ≠ col2 / 3 then (result, false)
    else
      let box_col := col1 / 3
      let start_row := 3 * (row / 3)
      pp_rows_inner s num row box_col
        [start_row, start_row + 1, start_row + 2] result

/-- The `for num in 1..=9` loop of `find_pointing_pair_in_rows`. -/
def pp_rows_nums (s : Sudoku) (row : Nat) :
    List Nat → RemovalResult → RemovalResult × Bool
  | [], result => (result, false)
  | num :: rest, result =>
    match pp_rows_step s row num result with
    | (result, true) => (result, true)
    | (result, false) => pp_rows_nums s row rest result

/-- The `for row in 0..9` loop of `find_pointing_pair_in_rows`. -/
def pp_rows_outer (s : Sudoku) :
    List Nat → RemovalResult → RemovalResult × Bool
  | [], result => (result, false)
  | row :: rest, result =>
    match pp_rows_nums s row nums1to9 result with
    | (result, true) => (result, true)
    | (result, false) => pp_rows_outer s rest result

/-- `find_pointing_pair_in_rows`. -/
def find_pointing_pair_in_rows (s : Sudoku) : RemovalResult :=
  (pp_rows_outer s range9 RemovalResult.empty).1

/-- The inner `for r in (box_idx * 3)..(box_idx * 3 + 3)` push loop of
`find_pointing_pair_in_cols`. -/
def pp_cols_push (s : Sudoku) (num c box_idx : Nat) (result : RemovalResult) :
    RemovalResult :=
  (List.range 3).foldl (fun res k =>
    let r := box_idx * 3 + k
    if (s.candidates r c).contains num then
      { res with
        candidates_affected := res.candidates_affected ++ [⟨r, c, num⟩]
        cells_affected := res.cells_affected ++ [⟨r, c, num⟩] }
    else res) result

/-- The `for c in start_col..start_col + 3` loop of
`find_pointing_pair_in_cols`, with its early return. -/
def pp_cols_inner (s : Sudoku) (num col box_idx : Nat) :
    List Nat → RemovalResult → RemovalResult × Bool
  | [], result => (result, false)
  | c :: rest, result =>
    if c = col then pp_cols_inner s num col box_idx rest result
    else
      let result := pp_cols_push s num c box_idx result
      if result.will_remove_candidates then (result, true)
      else pp_cols_inner s num col box_idx rest result

/-- One `(col, num)` iteration of `find_pointing_pair_in_cols`; unlike the
row version it first records the two originating cells in `cells_affected`. -/
def pp_cols_step (s : Sudoku) (col num : Nat) (result : RemovalResult) :
    RemovalResult × Bool :=
  let cells_with_num := range9.filter fun row => (s.candidates row col).contains num
  if cells_with_num.length ≠ 2 then (result, false)
  else
    let row1 := cells_with_num.headD 0
    let row2 := cells_with_num.getD 1 0
    if row1 / 3 ≠ row2 / 3 then (result, false)
    else
      let box_idx := row1 / 3
      let start_col := 3 * (col / 3)
      let result := { result with cells_affected :=
        result.cells_affected ++ [⟨row1, col, num⟩, ⟨row2, col, num⟩] }
      pp_cols_inner s num col box_idx
        [start_col, start_col + 1, start_col + 2] result

/-- The `for num in 1..=9` loop of `find_pointing_pair_in_cols`. -/
def pp_cols_nums (s : Sudoku) (col : Nat) :
    List Nat → RemovalResult → RemovalResult × Bool
  | [], result => (result, false)
  | num :: rest, result =>
    match pp_cols_step s col num result with
    | (result, true) => (result, true)
    | (result, false) => pp_cols_nums s col rest result

/-- The `for col in 0..9` loop of `find_pointing_pair_in_cols`. -/
def pp_cols_outer (s : Sudoku) :
    List Nat → RemovalResult → RemovalResult × Bool
  | [], result => (result, false)
  | col :: rest, result =>
    match pp_cols_nums s col nums1to9 result with
    | (result, true) => (result, true)
    | (result, false) => pp_cols_outer s rest result

/-- `find_pointing_pair_in_cols`. -/
def find_pointing_pair_in_cols (s : Sudoku) : RemovalResult :=
  (pp_cols_outer s range9 RemovalResult.empty).1

/-- `find_pointing_pair`: rows first, then columns. -/
def find_pointing_pair (s : Sudoku) : StrategyResult :=
  let result := s.find_pointing_pair_in_rows
  if result.will_remove_candidates then
    { strategy := Strategy.PointingPair, removals := result }
  else
    { strategy := Strategy.PointingPair, removals := s.find_pointing_pair_in_cols }

/-! ### ObviousPair

In the Rust scans the `result` accumulator is shared across iterations, but
every batch of insertions is immediately followed by the
`will_remove_candidates` early-return test, so a batch that reaches a later
iteration is always empty; the embedding therefore computes each iteration's
batch locally. -/

/-- The elimination batch of one row obvious pair: the pair digits in the
other cells of the row. -/
def op_row_batch (s : Sudoku) (pair : List Nat) (row col i : Nat) : List Candidate :=
  range9.foldl (fun acc j =>
    if j ≠ col ∧ j ≠ i then
      pair.foldl (fun acc num =>
        if (s.candidates row j).contains num then insertC acc ⟨row, j, num⟩
        else acc) acc
    else acc) []

/-- Scan of `find_obvious_pair_in_rows` over the `(row, col, i)` triples. -/
def find_obvious_pair_in_rows_aux (s : Sudoku) :
    List (Nat × Nat × Nat) → RemovalResult
  | [] => RemovalResult.empty
  | (row, col, i) :: rest =>
    if (s.candidates row col).length ≠ 2 then find_obvious_pair_in_rows_aux s rest
    else
      let pair := s.candidates row col
      if !listSetEq (s.candidates row i) pair then find_obvious_pair_in_rows_aux s rest
      else
        let batch := op_row_batch s pair row col i
        if batch.isEmpty then find_obvious_pair_in_rows_aux s rest
        else
          { RemovalResult.empty with
            candidates_about_to_be_removed := batch
            candidates_affected :=
              (pair.map fun num => ⟨row, col, num⟩) ++ pair.map fun num => ⟨row, i, num⟩ }

/-- The `(row, col, i)` triples of `find_obvious_pair_in_rows`, in scan order. -/
def opRowTriples : List (Nat × Nat × Nat) :=
  range9.flatMap fun row => range9.flatMap fun col =>
    (rangeFT (col + 1) 9).map fun i => (row, col, i)

/-- `find_obvious_pair_in_rows`. -/
def find_obvious_pair_in_rows (s : Sudoku) : RemovalResult :=
  find_obvious_pair_in_rows_aux s opRowTriples

/-- The elimination batch of one column obvious pair. -/
def op_col_batch (s : Sudoku) (pair : List Nat) (col row i : Nat) : List Candidate :=
  range9.foldl (fun acc j =>
    if j ≠ row ∧ j ≠ i then
      pair.foldl (fun acc num =>
        if (s.candidates j col).contains num then insertC acc ⟨j, col, num⟩
        else acc) acc
    else acc) []

/-- Scan of `find_obvious_pair_in_cols` over the `(col, row, i)` triples. -/
def find_obvious_pair_in_cols_aux (s : Sudoku) :
    List (Nat × Nat × Nat) → RemovalResult
  | [] => RemovalResult.empty
  | (col, row, i) :: rest =>
    if (s.candidates row col).length ≠ 2 then find_obvious_pair_in_cols_aux s rest
    else
      let pair := s.candidates row col
      if !listSetEq (s.candidates i col) pair then find_obvious_pair_in_cols_aux s rest
      else
        let batch := op_col_batch s pair col row i
        if batch.isEmpty then find_obvious_pair_in_cols_aux s rest
        else
          { RemovalResult.empty with
            candidates_about_to_be_removed := batch
            candidates_affected :=
              (pair.map fun num => ⟨row, col, num⟩) ++ pair.map fun num => ⟨i, col, num⟩ }

/-- The `(col, row, i)` triples of `find_obvious_pair_in_cols`, in scan order. -/
def opColTriples : List (Nat × Nat × Nat) :=
  range9.flatMap fun col => range9.flatMap fun row =>
    (rangeFT (row + 1) 9).map fun i => (col, row, i)

/-- `find_obvious_pair_in_cols`. -/
def find_obvious_pair_in_cols (s : Sudoku) : RemovalResult :=
  find_obvious_pair_in_cols_aux s opColTriples

/-- Cell of a box by its linear index `k` (`row = k / 3`, `col = k % 3`). -/
def boxCellAt (start_row start_col k : Nat) : Nat × Nat :=
  (start_row + k / 3, start_col + k % 3)

/-- The elimination batch of one box obvious pair: the pair digits in the
box cells other than the two pair cells. -/
def op_box_batch (s : Sudoku) (pair : List Nat) (start_row start_col : Nat)
    (cell1 cell2 : Nat × Nat) : List Candidate :=
  (boxCellsFrom start_row start_col).foldl (fun acc p =>
    if (p.1 ≠ cell1.1 ∨ p.2 ≠ cell1.2) ∧ (p.1 ≠ cell2.1 ∨ p.2 ≠ cell2.2) then
      pair.foldl (fun acc num =>
        if (s.candidates p.1 p.2).contains num then insertC acc ⟨p.1, p.2, num⟩
        else acc) acc
    else acc) []

/-- Scan of `find_obvious_pair_in_boxes` over `(start_row, start_col, k1, k2)`:
box origins in `box_row`-major order, `k1` the linear index of the first cell,
`k2 > k1` that of the second (the Rust skip condition
`r2 * 3 + c2 <= r1 * 3 + c1`). -/
def find_obvious_pair_in_boxes_aux (s : Sudoku) :
    List (Nat × Nat × Nat × Nat) → RemovalResult
  | [] => RemovalResult.empty
  | (start_row, start_col, k1, k2) :: rest =>
    let cell1 := boxCellAt start_row start_col k1
    let cell2 := boxCellAt start_row start_col k2
    if (s.candidates cell1.1 cell1.2).length ≠ 2 then
      find_obvious_pair_in_boxes_aux s rest
    else
      let pair := s.candidates cell1.1 cell1.2
      if !listSetEq (s.candidates cell2.1 cell2.2) pair then
        find_obvious_pair_in_boxes_aux s rest
      else
        let batch := op_box_batch s pair start_row start_col cell1 cell2
        if batch.isEmpty then find_obvious_pair_in_boxes_aux s rest
        else
          { RemovalResult.empty with
            candidates_about_to_be_removed := batch
            candidates_affected :=
              (pair.map fun num => ⟨cell1.1, cell1.2, num⟩) ++
                (s.candidates cell2.1 cell2.2).map fun num => ⟨cell2.1, cell2.2, num⟩ }

/-- The scan tuples of `find_obvious_pair_in_boxes`. -/
def opBoxTuples : List (Nat × Nat × Nat × Nat) :=
  (List.range 3).flatMap fun box_row => (List.range 3).flatMap fun box_col =>
    (List.range 9).flatMap fun k1 => (rangeFT (k1 + 1) 9).map fun k2 =>
      (box_row * 3, box_col * 3, k1, k2)

/-- `find_obvious_pair_in_boxes`. -/
def find_obvious_pair_in_boxes (s : Sudoku) : RemovalResult :=
  find_obvious_pair_in_boxes_aux s opBoxTuples

/-- `find_obvious_pair`: rows, then columns, then boxes. -/
def find_obvious_pair (s : Sudoku) : StrategyResult :=
  let removal_result := s.find_obvious_pair_in_rows
  if removal_result.will_remove_candidates then
    { strategy := Strategy.ObviousPair, removals := removal_result }
  else
    let removal_result := s.find_obvious_pair_in_cols
    if removal_result.will_remove_candidates then
      { strategy := Strategy.ObviousPair, removals := removal_result }
    else
      { strategy := Strategy.ObviousPair, removals := s.find_obvious_pair_in_boxes }

/-! ### HiddenPair

Despite their names, in the Rust source `find_hidden_pair_in_rows` scans
*boxes*, `find_hidden_pair_in_cols` scans *rows* and
`find_hidden_pair_in_boxes` scans *columns* (each function's body and its
comment disagree with its name).  The embedding keeps the source names.

`digit_locations` is a `HashMap<u8, Vec<_>>`; for each digit its vector
lists, in cell scan order, the empty cells whose candidate set holds the
digit, which is the `filter` below.  The `HashMap` iteration order that
picks the order of `candidates` (and hence of `digit_pairs`) is
run-dependent in Rust; the embedding models it as ascending digit order. -/

/-- Positions of digit `d` in the box at `(start_row, start_col)`
(the `digit_locations` entry of `d`). -/
def hp_box_locations (s : Sudoku) (start_row start_col d : Nat) : List (Nat × Nat) :=
  (boxCellsFrom start_row start_col).filter fun p =>
    s.board p.1 p.2 == 0 && (s.candidates p.1 p.2).contains d

/-- Ordered pairs of distinct elements of a list (`for i; for j in skip(i+1)`). -/
def ordPairs {α : Type} : List α → List (α × α)
  | [] => []
  | x :: xs => (xs.map fun y => (x, y)) ++ ordPairs xs

/-- The elimination batch of one hidden pair: every digit other than the
two pair digits found in the two cells. -/
def hp_pair_batch (s : Sudoku) (d1 d2 : Nat) (cells : List (Nat × Nat)) :
    List Candidate :=
  cells.foldl (fun acc p =>
    nums1to9.foldl (fun acc num =>
      if num ≠ d1 ∧ num ≠ d2 ∧ (s.candidates p.1 p.2).contains num then
        insertC acc ⟨p.1, p.2, num⟩
      else acc) acc) []

/-- The `digit_pairs` loop: the first pair whose batch is nonempty fires. -/
def hp_scan_pairs (s : Sudoku) :
    List (Nat × Nat × (Nat × Nat) × (Nat × Nat)) → RemovalResult
  | [] => RemovalResult.empty
  | (d1, d2, c1, c2) :: rest =>
    let batch := hp_pair_batch s d1 d2 [c1, c2]
    if batch.isEmpty then hp_scan_pairs s rest
    else { RemovalResult.empty with candidates_about_to_be_removed := batch }

/-- `digit_pairs` of one box: ordered pairs of digits appearing in exactly
two cells, with identical position vectors. -/
def hp_box_pairs (s : Sudoku) (start_row start_col : Nat) :
    List (Nat × Nat × (Nat × Nat) × (Nat × Nat)) :=
  let cands2 := nums1to9.filter fun d =>
    (hp_box_locations s start_row start_col d).length == 2
  (ordPairs cands2).filterMap fun q =>
    let l1 := hp_box_locations s start_row start_col q.1
    if l1 = hp_box_locations s start_row start_col q.2 then
      some (q.1, q.2, l1.headD (0, 0), l1.getD 1 (0, 0))
    else none

/-- `find_hidden_pair_in_rows` — the *box* scan. -/
def find_hidden_pair_in_rows_aux (s : Sudoku) : List (Nat × Nat) → RemovalResult
  | [] => RemovalResult.empty
  | (box_row, box_col) :: rest =>
    let r := hp_scan_pairs s (hp_box_pairs s (box_row * 3) (box_col * 3))
    if r.will_remove_candidates then r else find_hidden_pair_in_rows_aux s rest

/-- The `(box_row, box_col)` scan order. -/
def boxRCList : List (Nat × Nat) :=
  (List.range 3).flatMap fun box_row => (List.range 3).map fun box_col =>
    (box_row, box_col)

/-- `find_hidden_pair_in_rows`. -/
def find_hidden_pair_in_rows (s : Sudoku) : RemovalResult :=
  find_hidden_pair_in_rows_aux s boxRCList

/-- Positions (columns) of digit `d` in a row. -/
def hp_row_locations (s : Sudoku) (row d : Nat) : List Nat :=
  range9.filter fun col =>
    s.board row col == 0 && (s.candidates row col).contains d

/-- `digit_pairs` of one row. -/
def hp_row_pairs (s : Sudoku) (row : Nat) : List (Nat × Nat × Nat × Nat) :=
  let cands2 := nums1to9.filter fun d => (hp_row_locations s row d).length == 2
  (ordPairs cands2).filterMap fun q =>
    let l1 := hp_row_locations s row q.1
    if l1 = hp_row_locations s row q.2 then
      some (q.1, q.2, l1.headD 0, l1.getD 1 0)
    else none

/-- `find_hidden_pair_in_cols` — the *row* scan. -/
def find_hidden_pair_in_cols_aux (s : Sudoku) : List Nat → RemovalResult
  | [] => RemovalResult.empty
  | row :: rest =>
    let r := hp_scan_pairs s ((hp_row_pairs s row).map fun q =>
      (q.1, q.2.1, (row, q.2.2.1), (row, q.2.2.2)))
    if r.will_remove_candidates then r else find_hidden_pair_in_cols_aux s rest

/-- `find_hidden_pair_in_cols`. -/
def find_hidden_pair_in_cols (s : Sudoku) : RemovalResult :=
  find_hidden_pair_in_cols_aux s range9

/-- Positions (rows) of digit `d` in a column. -/
def hp_col_locations (s : Sudoku) (col d : Nat) : List Nat :=
  range9.filter fun row =>
    s.board row col == 0 && (s.candidates row col).contains d

/-- `digit_pairs` of one column. -/
def hp_col_pairs (s : Sudoku) (col : Nat) : List (Nat × Nat × Nat × Nat) :=
  let cands2 := nums1to9.filter fun d => (hp_col_locations s col d).length == 2
  (ordPairs cands2).filterMap fun q =>
    let l1 := hp_col_locations s col q.1
    if l1 = hp_col_locations s col q.2 then
      some (q.1, q.2, l1.headD 0, l1.getD 1 0)
    else none

/-- `find_hidden_pair_in_boxes` — the *column* scan. -/
def find_hidden_pair_in_boxes_aux (s : Sudoku) : List Nat → RemovalResult
  | [] => RemovalResult.empty
  | col :: rest =>
    let r := hp_scan_pairs s ((hp_col_pairs s col).map fun q =>
      (q.1, q.2.1, (q.2.2.1, col), (q.2.2.2, col)))
    if r.will_remove_candidates then r else find_hidden_pair_in_boxes_aux s rest

/-- `find_hidden_pair_in_boxes`. -/
def find_hidden_pair_in_boxes (s : Sudoku) : RemovalResult :=
  find_hidden_pair_in_boxes_aux s range9

/-- `find_hidden_pair`: first the box scan (`_in_rows`), then the row scan
(`_in_cols`), then the column scan (`_in_boxes`). -/
def find_hidden_pair (s : Sudoku) : StrategyResult :=
  let removal_result := s.find_hidden_pair_in_rows
  if removal_result.will_remove_candidates then
    { strategy := Strategy.HiddenPair, removals := removal_result }
  else
    let removal_result := s.find_hidden_pair_in_cols
    if removal_result.will_remove_candidates then
      { strategy := Strategy.HiddenPair, removals := removal_result }
    else
      { strategy := Strategy.HiddenPair, removals := s.find_hidden_pair_in_boxes }

/-! ### XWing -/

/-- Columns holding candidate `num` in a row. -/
def xw_row_cols (s : Sudoku) (num row : Nat) : List Nat :=
  range9.filter fun col => (s.candidates row col).contains num

/-- Rows holding candidate `num` in a column. -/
def xw_col_rows (s : Sudoku) (num col : Nat) : List Nat :=
  range9.filter fun row => (s.candidates row col).contains num

/-- Removals of a row X-Wing: `num` in the two columns, outside the two rows. -/
def xw_rows_batch (s : Sudoku) (num row1 row2 : Nat) (cols : List Nat) :
    List Candidate :=
  range9.foldl (fun acc row =>
    if row = row1 ∨ row = row2 then acc
    else cols.foldl (fun acc col =>
      if (s.candidates row col).contains num then insertC acc ⟨row, col, num⟩
      else acc) acc) []

/-- Scan of `find_xwing_in_rows` over the `(num, row1, row2)` triples. -/
def find_xwing_in_rows_aux (s : Sudoku) : List (Nat × Nat × Nat) → RemovalResult
  | [] => RemovalResult.empty
  | (num, row1, row2) :: rest =>
    let cols1 := xw_row_cols s num row1
    if cols1.length ≠ 2 then find_xwing_in_rows_aux s rest
    else
      let cols2 := xw_row_cols s num row2
      if cols2.length ≠ 2 ∨ cols1 ≠ cols2 then find_xwing_in_rows_aux s rest
      else
        let batch := xw_rows_batch s num row1 row2 cols1
        if batch.isEmpty then find_xwing_in_rows_aux s rest
        else { RemovalResult.empty with candidates_about_to_be_removed := batch }

/-- The `(num, row1, row2)` scan order of `find_xwing_in_rows`. -/
def xwRowTriples : List (Nat × Nat × Nat) :=
  nums1to9.flatMap fun num => (List.range 8).flatMap fun row1 =>
    (rangeFT (row1 + 1) 9).map fun row2 => (num, row1, row2)

/-- `find_xwing_in_rows`. -/
def find_xwing_in_rows (s : Sudoku) : RemovalResult :=
  find_xwing_in_rows_aux s xwRowTriples

/-- Removals of a column X-Wing: `num` in the two rows, outside the two columns. -/
def xw_cols_batch (s : Sudoku) (num col1 col2 : Nat) (rows : List Nat) :
    List Candidate :=
  rows.foldl (fun acc row =>
    range9.foldl (fun acc col =>
      if col = col1 ∨ col = col2 then acc
      else if (s.candidates row col).contains num then insertC acc ⟨row, col, num⟩
      else acc) acc) []

/-- Scan of `find_xwing_in_cols` over the `(num, col1, col2)` triples. -/
def find_xwing_in_cols_aux (s : Sudoku) : List (Nat × Nat × Nat) → RemovalResult
  | [] => RemovalResult.empty
  | (num, col1, col2) :: rest =>
    let rows1 := xw_col_rows s num col1
    if rows1.length ≠ 2 then find_xwing_in_cols_aux s rest
    else
      let rows2 := xw_col_rows s num col2
      if rows2.length ≠ 2 ∨ rows1 ≠ rows2 then find_xwing_in_cols_aux s rest
      else
        let batch := xw_cols_batch s num col1 col2 rows1
        if batch.isEmpty then find_xwing_in_cols_aux s rest
        else { RemovalResult.empty with candidates_about_to_be_removed := batch }

/-- The `(num, col1, col2)` scan order of `find_xwing_in_cols`. -/
def xwColTriples : List (Nat × Nat × Nat) :=
  nums1to9.flatMap fun num => (List.range 8).flatMap fun col1 =>
    (rangeFT (col1 + 1) 9).map fun col2 => (num, col1, col2)

/-- `find_xwing_in_cols`. -/
def find_xwing_in_cols (s : Sudoku) : RemovalResult :=
  find_xwing_in_cols_aux s xwColTriples

/-- `find_xwing`: rows first, then columns; otherwise the `None`-tagged
`StrategyResult::empty()`. -/
def find_xwing (s : Sudoku) : StrategyResult :=
  let result := s.find_xwing_in_rows
  if result.will_remove_candidates then
    { strategy := Strategy.XWing, removals := result }
  else
    let result := s.find_xwing_in_cols
    if result.will_remove_candidates then
      { strategy := Strategy.XWing, removals := result }
    else StrategyResult.empty

/-! ### Driver -/

/-- `entry(st).and_modify(|c| c += n).or_insert(n)` on the rating ledger. -/
def bump (rt : Strategy → Nat) (st : Strategy) (n : Nat) : Strategy → Nat :=
  fun t => if t = st then rt t + n else rt t

/-- `next_step`: ask the detectors in fixed priority order; the first firing
one has its removal count added to the ledger and its result returned.
`none` models a panic inside `find_last_digit` or `find_obvious_single`. -/
def next_step (s : Sudoku) : Option (Sudoku × StrategyResult) :=
  match s.find_last_digit with
  | none => none
  | some r1 =>
    if r1.will_remove_candidates then
      some ({ s with rating := (bump s.rating Strategy.LastDigit
                r1.candidates_about_to_be_removed.length) },
            { strategy := Strategy.LastDigit, removals := r1 })
    else
      match s.find_obvious_single with
      | none => none
      | some r2 =>
        if r2.will_remove_candidates then
          some ({ s with rating := (bump s.rating Strategy.ObviousSingle
                    r2.candidates_about_to_be_removed.length) },
                { strategy := Strategy.ObviousSingle, removals := r2 })
        else
          let r3 := s.find_hidden_single
          if r3.will_remove_candidates then
            some ({ s with rating := (bump s.rating Strategy.HiddenSingle
                      r3.candidates_about_to_be_removed.length) },
                  { strategy := Strategy.HiddenSingle, removals := r3 })
          else
            let r4 := s.find_pointing_pair
            if r4.removals.will_remove_candidates then
              some ({ s with rating := (bump s.rating Strategy.PointingPair
                        r4.removals.candidates_about_to_be_removed.length) },
                    { strategy := Strategy.PointingPair, removals := r4.removals })
            else
              let r5 := s.find_obvious_pair
              if r5.removals.will_remove_candidates then
                some ({ s with rating := (bump s.rating Strategy.ObviousPair
                          r5.removals.candidates_about_to_be_removed.length) },
                      { strategy := Strategy.ObviousPair, removals := r5.removals })
              else
                let r6 := s.find_hidden_pair
                if r6.removals.will_remove_candidates then
                  some ({ s with rating := (bump s.rating Strategy.HiddenPair
                            r6.removals.candidates_about_to_be_removed.length) },
                        { strategy := Strategy.HiddenPair, removals := r6.removals })
                else
                  let r7 := s.find_xwing
                  if r7.removals.will_remove_candidates then
                    some ({ s with rating := (bump s.rating Strategy.XWing
                              r7.removals.candidates_about_to_be_removed.length) },
                          { strategy := Strategy.XWing, removals := r7.removals })
                  else some (s, StrategyResult.empty)

/-- The removal loop of `apply`; `none` models the failing
`assert!(self.candidates[note.row][note.col].contains(&note.num))`. -/
def removeNotes (cands : Nat → Nat → List Nat) :
    List Candidate → Option (Nat → Nat → List Nat)
  | [] => some cands
  | note :: rest =>
    if (cands note.row note.col).contains note.num then
      removeNotes
        (update2 cands note.row note.col ((cands note.row note.col).erase note.num))
        rest
    else none

/-- `apply`: delete the collected candidates, then, when a cell is set,
place the digit and add 1 to the ledger entry of the strategy. -/
def apply (s : Sudoku) (sr : StrategyResult) : Option (Sudoku × Resolution) :=
  let result : Resolution :=
    { nums_removed := sr.removals.candidates_about_to_be_removed.length,
      strategy := sr.strategy }
  match removeNotes s.candidates sr.removals.candidates_about_to_be_removed with
  | none => none
  | some cands1 =>
    match sr.removals.sets_cell with
    | none => some ({ s with candidates := cands1 }, result)
    | some cell =>
      some ({ s with
              candidates := cands1,
              board := update2 s.board cell.row cell.col cell.num,
              rating := bump s.rating sr.strategy 1 }, result)

end Sudoku

/-- Result of running the driver loop with a fuel bound. -/
inductive LoopResult where
  | done (s : Sudoku)
  | panicked
  | outOfFuel
deriving Nonempty

/-- The `while self.unsolved()` loop of `solve_like_a_human`, with explicit
fuel.  `done` is a normal loop exit (solved, or no strategy applies),
`panicked` a Rust assertion failure. -/
def solveLoop : Nat → Sudoku → LoopResult
  | 0, _ => LoopResult.outOfFuel
  | fuel + 1, s =>
    if s.is_solved then LoopResult.done s
    else
      match s.next_step with
      | none => LoopResult.panicked
      | some (s1, r) =>
        if r.strategy = Strategy.None then LoopResult.done s1
        else
          match s1.apply r with
          | none => LoopResult.panicked
          | some (s2, _) => solveLoop fuel s2

/-- Total number of candidate entries on the 9×9 grid. -/
def totalCandidates (cands : Nat → Nat → List Nat) : Nat :=
  ∑ r ∈ Finset.range 9, ∑ c ∈ Finset.range 9, (cands r c).length

/-- `solve_like_a_human`: compute the notes, clear the rating, loop.
By C6 the fuel `totalCandidates + 1` is never exhausted. -/
def Sudoku.solve_like_a_human (s : Sudoku) : LoopResult :=
  let s1 := { s.calc_all_notes with rating := fun _ => 0 }
  solveLoop (totalCandidates s1.candidates + 1) s1

/-! ## Spec-side HiddenPair scan (for the refinement claim C7)

The following definitions follow the words of spec §4.8: scan boxes first,
then rows, then columns; in a group, a hidden pair is two digits whose
candidate-position lists have length 2 and match exactly; the first pair
with an actual elimination fires.  They are compared with the source
embedding `find_hidden_pair` above. -/

/-- Spec: the cells of a box where `d` appears as a candidate. -/
def specBoxLocations (s : Sudoku) (start_row start_col d : Nat) : List (Nat × Nat) :=
  (boxCellsFrom start_row start_col).filter fun p =>
    (s.candidates p.1 p.2).contains d

/-- Spec: the columns of a row where `d` appears as a candidate. -/
def specRowLocations (s : Sudoku) (row d : Nat) : List Nat :=
  range9.filter fun col => (s.candidates row col).contains d

/-- Spec: the rows of a column where `d` appears as a candidate. -/
def specColLocations (s : Sudoku) (col d : Nat) : List Nat :=
  range9.filter fun row => (s.candidates row col).contains d

/-- Spec: the hidden pairs of one box. -/
def specBoxPairs (s : Sudoku) (start_row start_col : Nat) :
    List (Nat × Nat × (Nat × Nat) × (Nat × Nat)) :=
  let cands2 := nums1to9.filter fun d =>
    (specBoxLocations s start_row start_col d).length == 2
  (Sudoku.ordPairs cands2).filterMap fun q =>
    let l1 := specBoxLocations s start_row start_col q.1
    if l1 = specBoxLocations s start_row start_col q.2 then
      some (q.1, q.2, l1.headD (0, 0), l1.getD 1 (0, 0))
    else none

/-- Spec: the hidden pairs of one row. -/
def specRowPairs (s : Sudoku) (row : Nat) : List (Nat × Nat × Nat × Nat) :=
  let cands2 := nums1to9.filter fun d => (specRowLocations s row d).length == 2
  (Sudoku.ordPairs cands2).filterMap fun q =>
    let l1 := specRowLocations s row q.1
    if l1 = specRowLocations s row q.2 then
      some (q.1, q.2, l1.headD 0, l1.getD 1 0)
    else none

/-- Spec: the hidden pairs of one column. -/
def specColPairs (s : Sudoku) (col : Nat) : List (Nat × Nat × Nat × Nat) :=
  let cands2 := nums1to9.filter fun d => (specColLocations s col d).length == 2
  (Sudoku.ordPairs cands2).filterMap fun q =>
    let l1 := specColLocations s col q.1
    if l1 = specColLocations s col q.2 then
      some (q.1, q.2, l1.headD 0, l1.getD 1 0)
    else none

/-- Spec: scan the boxes in `box_row`-major order. -/
def specHiddenPairBoxScanAux (s : Sudoku) : List (Nat × Nat) → RemovalResult
  | [] => RemovalResult.empty
  | (box_row, box_col) :: rest =>
    let r := Sudoku.hp_scan_pairs s (specBoxPairs s (box_row * 3) (box_col * 3))
    if r.will_remove_candidates then r else specHiddenPairBoxScanAux s rest

/-- Spec: the box scan of the hidden-pair strategy. -/
def specHiddenPairBoxScan (s : Sudoku) : RemovalResult :=
  specHiddenPairBoxScanAux s Sudoku.boxRCList

/-- Spec: scan the rows in order. -/
def specHiddenPairRowScanAux (s : Sudoku) : List Nat → RemovalResult
  | [] => RemovalResult.empty
  | row :: rest =>
    let r := Sudoku.hp_scan_pairs s ((specRowPairs s row).map fun q =>
      (q.1, q.2.1, (row, q.2.2.1), (row, q.2.2.2)))
    if r.will_remove_candidates then r else specHiddenPairRowScanAux s rest

/-- Spec: the row scan of the hidden-pair strategy. -/
def specHiddenPairRowScan (s : Sudoku) : RemovalResult :=
  specHiddenPairRowScanAux s range9

/-- Spec: scan the columns in order. -/
def specHiddenPairColScanAux (s : Sudoku) : List Nat → RemovalResult
  | [] => RemovalResult.empty
  | col :: rest =>
    let r := Sudoku.hp_scan_pairs s ((specColPairs s col).map fun q =>
      (q.1, q.2.1, (q.2.2.1, col), (q.2.2.2, col)))
    if r.will_remove_candidates then r else specHiddenPairColScanAux s rest

/-- Spec: the column scan of the hidden-pair strategy. -/
def specHiddenPairColScan (s : Sudoku) : RemovalResult :=
  specHiddenPairColScanAux s range9

/-- Spec §4.8: boxes first, then rows, then columns; first firing scan wins. -/
def specHiddenPair (s : Sudoku) : StrategyResult :=
  let removal_result := specHiddenPairBoxScan s
  if removal_result.will_remove_candidates then
    { strategy := Strategy.HiddenPair, removals := removal_result }
  else
    let removal_result := specHiddenPairRowScan s
    if removal_result.will_remove_candidates then
      { strategy := Strategy.HiddenPair, removals := removal_result }
    else
      { strategy := Strategy.HiddenPair, removals := specHiddenPairColScan s }

/-! ## State-space hypotheses

The embedding extends every 9×9 array to a total function on `Nat`; real
program states carry no data outside the grid, which these predicates
express.  The second one is the candidate-grid invariant of spec §3 (a
placed cell has an empty candidate set). -/

/-- Cells outside the 9×9 grid hold no candidates. -/
def candsOutsideGridEmpty (s : Sudoku) : Prop :=
  ∀ r c, 9 ≤ r ∨ 9 ≤ c → s.candidates r c = []

/-- Cells holding a digit have an empty candidate set. -/
def noCandsAtFilledCells (s : Sudoku) : Prop :=
  ∀ r c, r < 9 → c < 9 → s.board r c ≠ 0 → s.candidates r c = []

/-! ## Concrete input puzzles and states used by the claims -/

/-- C2: the last-digit puzzle of `test_resolve_last_digit` — row 0 is
`123456780`, everything else empty. -/
def ldPuzzle : List Char :=
  "123456780000000000000000000000000000000000000000000000000000000000000000000000000".toList

/-- C2: the state right after `from_string` and `calc_all_notes`. -/
def ldState : Sudoku := (Sudoku.new.from_string ldPuzzle).calc_all_notes

/-- C5: a permissively loaded, inconsistent puzzle: row 0 is `112345670`
(digit 1 twice, one empty cell), everything else empty. -/
def dupPuzzle : List Char :=
  "112345670000000000000000000000000000000000000000000000000000000000000000000000000".toList

/-- C5: the state right after `from_string` and `calc_all_notes`. -/
def dupState : Sudoku := (Sudoku.new.from_string dupPuzzle).calc_all_notes

/-- C4: a puzzle whose first driver step is a hidden single with two
possible digits: row 0 is `123456700`, with an 8 at (3,8) and a 9 at (4,8),
so that cell (0,8) loses both 8 and 9 and cell (0,7) is the only cell of
row 0 offering either 8 or 9. -/
def hsPuzzle : List Char :=
  ("123456700" ++ "000000000" ++ "000000000" ++ "000000008" ++ "000000009" ++
    "000000000" ++ "000000000" ++ "000000000" ++ "000000000").toList

/-- C4: the candidate grid computed by `calc_all_notes` on `hsPuzzle`,
spelled out as a literal table (proved equal to the computed grid in the
C4 theorem). -/
def hsTable : List (List (List Nat)) :=
  [[[], [], [], [], [], [], [], [8, 9], []],
   [[4, 5, 6, 7, 8, 9], [4, 5, 6, 7, 8, 9], [4, 5, 6, 7, 8, 9],
    [1, 2, 3, 7, 8, 9], [1, 2, 3, 7, 8, 9], [1, 2, 3, 7, 8, 9],
    [1, 2, 3, 4, 5, 6, 8, 9], [1, 2, 3, 4, 5, 6, 8, 9], [1, 2, 3, 4, 5, 6]],
   [[4, 5, 6, 7, 8, 9], [4, 5, 6, 7, 8, 9], [4, 5, 6, 7, 8, 9],
    [1, 2, 3, 7, 8, 9], [1, 2, 3, 7, 8, 9], [1, 2, 3, 7, 8, 9],
    [1, 2, 3, 4, 5, 6, 8, 9], [1, 2, 3, 4, 5, 6, 8, 9], [1, 2, 3, 4, 5, 6]],
   [[2, 3, 4, 5, 6, 7, 9], [1, 3, 4, 5, 6, 7, 9], [1, 2, 4, 5, 6, 7, 9],
    [1, 2, 3, 5, 6, 7, 9], [1, 2, 3, 4, 6, 7, 9], [1, 2, 3, 4, 5, 7, 9],
    [1, 2, 3, 4, 5, 6], [1, 2, 3, 4, 5, 6, 7], []],
   [[2, 3, 4, 5, 6, 7, 8], [1, 3, 4, 5, 6, 7, 8], [1, 2, 4, 5, 6, 7, 8],
    [1, 2, 3, 5, 6, 7, 8], [1, 2, 3, 4, 6, 7, 8], [1, 2, 3, 4, 5, 7, 8],
    [1, 2, 3, 4, 5, 6], [1, 2, 3, 4, 5, 6, 7], []],
   [[2, 3, 4, 5, 6, 7, 8, 9], [1, 3, 4, 5, 6, 7, 8, 9], [1, 2, 4, 5, 6, 7, 8, 9],
    [1, 2, 3, 5, 6, 7, 8, 9], [1, 2, 3, 4, 6, 7, 8, 9], [1, 2, 3, 4, 5, 7, 8, 9],
    [1, 2, 3, 4, 5, 6], [1, 2, 3, 4, 5, 6, 7], [1, 2, 3, 4, 5, 6, 7]],
   [[2, 3, 4, 5, 6, 7, 8, 9], [1, 3, 4, 5, 6, 7, 8, 9], [1, 2, 4, 5, 6, 7, 8, 9],
    [1, 2, 3, 5, 6, 7, 8, 9], [1, 2, 3, 4, 6, 7, 8, 9], [1, 2, 3, 4, 5, 7, 8, 9],
    [1, 2, 3, 4, 5, 6, 8, 9], [1, 2, 3, 4, 5, 6, 7, 8, 9], [1, 2, 3, 4, 5, 6, 7]],
   [[2, 3, 4, 5, 6, 7, 8, 9], [1, 3, 4, 5, 6, 7, 8, 9], [1, 2, 4, 5, 6, 7, 8, 9],
    [1, 2, 3, 5, 6, 7, 8, 9], [1, 2, 3, 4, 6, 7, 8, 9], [1, 2, 3, 4, 5, 7, 8, 9],
    [1, 2, 3, 4, 5, 6, 8, 9], [1, 2, 3, 4, 5, 6, 7, 8, 9], [1, 2, 3, 4, 5, 6, 7]],
   [[2, 3, 4, 5, 6, 7, 8, 9], [1, 3, 4, 5, 6, 7, 8, 9], [1, 2, 4, 5, 6, 7, 8, 9],
    [1, 2, 3, 5, 6, 7, 8, 9], [1, 2, 3, 4, 6, 7, 8, 9], [1, 2, 3, 4, 5, 7, 8, 9],
    [1, 2, 3, 4, 5, 6, 8, 9], [1, 2, 3, 4, 5, 6, 7, 8, 9], [1, 2, 3, 4, 5, 6, 7]]]

/-- C4: the post-`calc_all_notes` state of `hsPuzzle` with the candidate
sets iterating in ascending order (the table above). -/
def hsStateA : Sudoku :=
  { (Sudoku.new.from_string hsPuzzle).calc_all_notes with
    candidates := fun r c => (hsTable.getD r []).getD c [] }

/-- C4: the same state except that the candidate set of cell (0, 7) — the
same two-element set — iterates in the order `9, 8`. -/
def hsStateB : Sudoku :=
  { hsStateA with candidates := update2 hsStateA.candidates 0 7 [9, 8] }

/-- C1: a candidate state holding a pointing pair: digit 5 is a candidate of
row 0 exactly in cells (0,0) and (0,1) (both in box 0), and box 0 has an
eliminable 5 at (1,0). -/
def ppState : Sudoku :=
  { Sudoku.new with candidates := fun r c =>
      if r = 0 ∧ c ≤ 1 then [5] else if r = 1 ∧ c = 0 then [5] else [] }

/-- C7: a candidate state with a hidden pair in box 0: digits 1 and 2 occur
exactly in cells (0,0) and (0,1), which also hold the eliminable digit 3. -/
def hpState : Sudoku :=
  { Sudoku.new with candidates := fun r c =>
      if r = 0 ∧ c ≤ 1 then [1, 2, 3] else if r < 3 ∧ c < 3 then [3, 4, 5] else [] }

/-- C6: a fully solved board (the simple test puzzle). -/
def solvedPuzzle : List Char :=
  "123456789456789123789123456234567891567891234891234567345678912678912345912345678".toList

/-- C6: the solved board, loaded. -/
def solvedState : Sudoku := Sudoku.new.from_string solvedPuzzle

/-- C2: the first driver step on `ldState` (a LastDigit placement). -/
def ldStep1 : Sudoku × StrategyResult :=
  (Sudoku.next_step ldState).getD (Sudoku.new, StrategyResult.empty)

/-- C2: the state and resolution after applying that step. -/
def ldStep2 : Sudoku × Resolution :=
  (ldStep1.1.apply ldStep1.2).getD (Sudoku.new, { nums_removed := 0, strategy := Strategy.None })

/-! ## Characterization of the `from_string` write loop -/

theorem writeDigits_eq (ds : List Nat) (f : Nat → Nat → Nat) (i r c : Nat)
    (hr : r < 9) (hc : c < 9) :
    Sudoku.writeDigits f ds i r c =
      if i ≤ 9 * r + c ∧ 9 * r + c < i + ds.length then ds.getD (9 * r + c - i) 0
      else f r c := by
  induction ds generalizing f i with
  | nil =>
    rw [Sudoku.writeDigits, if_neg]
    simp only [List.length_nil, Nat.add_zero]
    omega
  | cons d ds ih =>
    rw [Sudoku.writeDigits, ih]
    rcases Nat.lt_trichotomy (9 * r + c) i with hlt | heq | hgt
    · rw [if_neg (by omega), if_neg (by omega), update2, if_neg]
      rintro ⟨hri, hci⟩
      subst hri hci
      omega
    · rw [if_neg (by omega), if_pos (by simp; omega), update2, if_pos]
      · simp [← heq]
      · constructor
        · omega
        · omega
    · by_cases hin : 9 * r + c < i + 1 + ds.length
      · rw [if_pos ⟨by omega, hin⟩, if_pos (by simp; omega)]
        have h1 : 9 * r + c - i = (9 * r + c - (i + 1)) + 1 := by omega
        simp [h1]
      · rw [if_neg (by omega), if_neg (by simp; omega), update2, if_neg]
        rintro ⟨hri, hci⟩
        subst hri hci
        omega

theorem from_string_board (s : Sudoku) (cs : List Char) (r c : Nat)
    (hr : r < 9) (hc : c < 9) :
    (s.from_string cs).board r c =
      if 9 * r + c < (Sudoku.digitsOf cs).length
      then (Sudoku.digitsOf cs).getD (9 * r + c) 0
      else s.board r c := by
  show Sudoku.writeDigits s.board (Sudoku.digitsOf cs) 0 r c = _
  rw [writeDigits_eq _ _ _ _ _ hr hc]
  simp

theorem from_string_original (s : Sudoku) (cs : List Char) (r c : Nat)
    (hr : r < 9) (hc : c < 9) :
    (s.from_string cs).original_board r c =
      if 9 * r + c < (Sudoku.digitsOf cs).length
      then (Sudoku.digitsOf cs).getD (9 * r + c) 0
      else 0 := by
  show Sudoku.writeDigits (fun _ _ => 0) (Sudoku.digitsOf cs) 0 r c = _
  rw [writeDigits_eq _ _ _ _ _ hr hc]
  simp

theorem from_string_candidates (s : Sudoku) (cs : List Char) :
    (s.from_string cs).candidates = s.candidates := rfl

theorem from_string_rating (s : Sudoku) (cs : List Char) :
    (s.from_string cs).rating = s.rating := rfl

/-! ## Helper lemmas about characters and the row-major flattening -/

theorem grid_flatten {α : Type} (f : Nat → Nat → α) :
    (range9.flatMap fun r => range9.map fun c => f r c) =
      (List.range 81).map fun i => f (i / 9) (i % 9) := by rfl

theorem digit_char_bounds (c : Char) (h : c.isDigit = true) :
    48 ≤ c.toNat ∧ c.toNat ≤ 57 := by
  simpa [Char.isDigit] using h

theorem ofNat_digit_spec (d : Nat) (h : d ≤ 9) :
    (Char.ofNat (d + 48)).toNat = d + 48 ∧ (Char.ofNat (d + 48)).isDigit = true := by
  interval_cases d <;> exact ⟨by decide, by decide⟩

theorem filterMap_ite_length (p : Char → Bool) (g : Char → Nat) (cs : List Char) :
    (cs.filterMap fun c => if p c then some (g c) else none).length =
      (cs.filter p).length := by
  induction cs with
  | nil => rfl
  | cons c cs ih =>
    by_cases hc : p c <;> simp [List.filterMap_cons, List.filter_cons, hc, ih]

theorem filterMap_ite_all (p : Char → Bool) (g : Char → Nat) (cs : List Char)
    (h : ∀ c ∈ cs, p c) :
    (cs.filterMap fun c => if p c then some (g c) else none) = cs.map g := by
  induction cs with
  | nil => rfl
  | cons c cs ih =>
    have hc : p c := h c (List.mem_cons_self c cs)
    simp [List.filterMap_cons, hc, ih fun x hx => h x (List.mem_cons_of_mem c hx)]

/-! ## Claims about loading and serializing (C3, C8, C9, C10) -/

/-- C9: `from_string` never fails; it keeps only the ASCII digit characters,
writes the first `min 81 count` of them row-major into both `board` and
`original_board`, resets `original_board` entirely to zeros beyond the
supplied digits, and leaves `board` cells beyond the supplied digits at
their previous values. -/
theorem from_string_permissive (s : Sudoku) (cs : List Char) :
    (Sudoku.digitsOf cs).length = min ((cs.filter fun c => c.isDigit).length) 81 ∧
    (∀ i, i < (Sudoku.digitsOf cs).length →
      (s.from_string cs).board (i / 9) (i % 9) = (Sudoku.digitsOf cs).getD i 0 ∧
      (s.from_string cs).original_board (i / 9) (i % 9) = (Sudoku.digitsOf cs).getD i 0) ∧
    (∀ i, (Sudoku.digitsOf cs).length ≤ i → i < 81 →
      (s.from_string cs).board (i / 9) (i % 9) = s.board (i / 9) (i % 9) ∧
      (s.from_string cs).original_board (i / 9) (i % 9) = 0) := by
  have hlen : (Sudoku.digitsOf cs).length ≤ 81 := by
    simp [Sudoku.digitsOf]
  refine ⟨?_, ?_, ?_⟩
  · rw [Sudoku.digitsOf, List.length_take, filterMap_ite_length, Nat.min_comm]
  · intro i hi
    have h9 : 9 * (i / 9) + i % 9 = i := by omega
    rw [from_string_board s cs _ _ (by omega) (by omega),
        from_string_original s cs _ _ (by omega) (by omega), h9,
        if_pos (by omega), if_pos (by omega)]
    exact ⟨rfl, rfl⟩
  · intro i hi hi81
    have h9 : 9 * (i / 9) + i % 9 = i := by omega
    rw [from_string_board s cs _ _ (by omega) (by omega),
        from_string_original s cs _ _ (by omega) (by omega), h9,
        if_neg (by omega), if_neg (by omega)]
    exact ⟨rfl, rfl⟩

/-- C9 witness: loading the 5-character string `"12345"` writes digit 3 to
cell (0, 2) on both boards, leaves cell (0, 8) of the board unchanged and
zeroes cell (0, 8) of the original board. -/
theorem from_string_permissive_witness :
    (2 < (Sudoku.digitsOf ['1', '2', '3', '4', '5']).length ∧
      (Sudoku.new.from_string ['1', '2', '3', '4', '5']).board (2 / 9) (2 % 9) =
        (Sudoku.digitsOf ['1', '2', '3', '4', '5']).getD 2 0 ∧
      (Sudoku.new.from_string ['1', '2', '3', '4', '5']).original_board (2 / 9) (2 % 9) =
        (Sudoku.digitsOf ['1', '2', '3', '4', '5']).getD 2 0) ∧
    ((Sudoku.digitsOf ['1', '2', '3', '4', '5']).length ≤ 8 ∧ 8 < 81 ∧
      (Sudoku.new.from_string ['1', '2', '3', '4', '5']).board (8 / 9) (8 % 9) =
        Sudoku.new.board (8 / 9) (8 % 9) ∧
      (Sudoku.new.from_string ['1', '2', '3', '4', '5']).original_board (8 / 9) (8 % 9) = 0) := by
  refine ⟨⟨by decide, ?_⟩, ⟨by decide, by decide, ?_⟩⟩
  · exact (from_string_permissive Sudoku.new ['1', '2', '3', '4', '5']).2.1 2 (by decide)
  · have h := (from_string_permissive Sudoku.new ['1', '2', '3', '4', '5']).2.2 8
      (by decide) (by decide)
    exact ⟨h.1, h.2⟩

/-- C3 counterexample: on the 1-digit input string `"5"`, `from_string` does
not reject the input — the 81-digit validity check fails, yet the board cell
(0, 0), previously 0, is populated with the digit 5 from the string. -/
theorem from_string_short_input_counterexample :
    Sudoku.from_string_valid ['5'] = false ∧
    Sudoku.new.board 0 0 = 0 ∧
    (Sudoku.new.from_string ['5']).board 0 0 = 5 := by
  refine ⟨by decide, by decide, by decide⟩

/-- C3 amended: for every input string containing fewer than 81 ASCII digit
characters, `from_string` reports the invalid-input condition (its 81-digit
check fails) but does not fail: it still populates the board with the digit
characters that are present. -/
theorem from_string_short_input_behavior (s : Sudoku) (cs : List Char)
    (h : (cs.filter fun c => c.isDigit).length < 81) :
    Sudoku.from_string_valid cs = false ∧
    ∀ i, i < (Sudoku.digitsOf cs).length →
      (s.from_string cs).board (i / 9) (i % 9) = (Sudoku.digitsOf cs).getD i 0 := by
  constructor
  · simp only [Sudoku.from_string_valid]
    rw [beq_eq_false_iff_ne]
    omega
  · intro i hi
    exact ((from_string_permissive s cs).2.1 i hi).1

/-- C3 amended witness: the single-character input `"5"`. -/
theorem from_string_short_input_behavior_witness :
    ((['5'].filter fun c => c.isDigit).length < 81) ∧
    (Sudoku.from_string_valid ['5'] = false ∧
      ∀ i, i < (Sudoku.digitsOf ['5']).length →
        (Sudoku.new.from_string ['5']).board (i / 9) (i % 9) =
          (Sudoku.digitsOf ['5']).getD i 0) :=
  ⟨by decide, from_string_short_input_behavior Sudoku.new ['5'] (by decide)⟩

/-- C8: loading any string of exactly 81 ASCII digits and serializing
returns the string unchanged. -/
theorem serialized_from_string_roundtrip (s : Sudoku) (cs : List Char)
    (hlen : cs.length = 81) (hdig : ∀ c ∈ cs, c.isDigit) :
    (s.from_string cs).serialized = cs := by
  have hds : Sudoku.digitsOf cs = cs.map fun c => c.toNat - 48 := by
    rw [Sudoku.digitsOf, filterMap_ite_all _ _ _ hdig, List.take_of_length_le]
    simp [hlen]
  have hdslen : (Sudoku.digitsOf cs).length = 81 := by simp [hds, hlen]
  rw [Sudoku.serialized, grid_flatten]
  apply List.ext_getElem
  · simp [hlen]
  · intro i hi1 hi2
    have hi81 : i < 81 := by rw [hlen] at hi2; exact hi2
    simp only [List.getElem_map, List.getElem_range]
    have h9 : 9 * (i / 9) + i % 9 = i := by omega
    rw [from_string_board s cs _ _ (by omega) (by omega), h9, if_pos (by omega), hds]
    have hget : (cs.map fun c => c.toNat - 48).getD i 0 = cs[i].toNat - 48 := by
      rw [List.getD_eq_getElem _ _ (by simpa [hlen] using hi81), List.getElem_map]
    rw [hget]
    have hb := digit_char_bounds cs[i] (hdig cs[i] (List.getElem_mem hi2))
    have hcancel : cs[i].toNat - 48 + 48 = cs[i].toNat := by omega
    rw [hcancel, Char.ofNat_toNat]

/-- C8 witness: the concrete 81-digit test puzzle round-trips. -/
theorem serialized_from_string_roundtrip_witness :
    (("860001000009250006000000008010020760040000000608000053080075024050002000300000000".toList).length = 81 ∧
      ∀ c ∈ "860001000009250006000000008010020760040000000608000053080075024050002000300000000".toList, c.isDigit) ∧
    (Sudoku.new.from_string
        "860001000009250006000000008010020760040000000608000053080075024050002000300000000".toList).serialized =
      "860001000009250006000000008010020760040000000608000053080075024050002000300000000".toList := by
  refine ⟨⟨by decide, by decide⟩, ?_⟩
  exact serialized_from_string_roundtrip Sudoku.new _ (by decide) (by decide)

/-- C10: `restore` rewrites `board` and `original_board` from the
original-board snapshot (both end up equal to the snapshot on the 9×9 grid)
while the candidate grid and the rating ledger are left unchanged. -/
theorem restore_spec (s : Sudoku)
    (h : ∀ r c, r < 9 → c < 9 → s.original_board r c ≤ 9) :
    (∀ r c, r < 9 → c < 9 →
      s.restore.board r c = s.original_board r c ∧
      s.restore.original_board r c = s.original_board r c) ∧
    s.restore.candidates = s.candidates ∧ s.restore.rating = s.rating := by
  have hds : Sudoku.digitsOf s.original_board_string =
      (List.range 81).map fun i => s.original_board (i / 9) (i % 9) := by
    rw [Sudoku.digitsOf, Sudoku.original_board_string, grid_flatten,
        filterMap_ite_all]
    · rw [List.map_map, List.take_of_length_le (by simp)]
      apply List.map_congr_left
      intro i hi
      rw [List.mem_range] at hi
      have hle := h (i / 9) (i % 9) (by omega) (by omega)
      show (Char.ofNat (s.original_board (i / 9) (i % 9) + 48)).toNat - 48 = _
      rw [(ofNat_digit_spec _ hle).1]
      omega
    · intro c hc
      rw [List.mem_map] at hc
      obtain ⟨i, hi, rfl⟩ := hc
      rw [List.mem_range] at hi
      exact (ofNat_digit_spec _ (h (i / 9) (i % 9) (by omega) (by omega))).2
  have hlen : (Sudoku.digitsOf s.original_board_string).length = 81 := by
    simp [hds]
  refine ⟨?_, rfl, rfl⟩
  intro r c hr hc
  have hidx : 9 * r + c < 81 := by omega
  have hb := from_string_board s s.original_board_string r c hr hc
  have ho := from_string_original s s.original_board_string r c hr hc
  rw [hlen, if_pos hidx] at hb ho
  have hget : (Sudoku.digitsOf s.original_board_string).getD (9 * r + c) 0 =
      s.original_board r c := by
    rw [hds, List.getD_eq_getElem _ _ (by simp; omega), List.getElem_map,
        List.getElem_range]
    congr 1 <;> omega
  rw [hget] at hb ho
  exact ⟨hb, ho⟩

/-- C10 witness: restoring a freshly created Sudoku. -/
theorem restore_spec_witness :
    (∀ r c, r < 9 → c < 9 →
      Sudoku.new.restore.board r c = Sudoku.new.original_board r c ∧
      Sudoku.new.restore.original_board r c = Sudoku.new.original_board r c) ∧
    Sudoku.new.restore.candidates = Sudoku.new.candidates ∧
    Sudoku.new.restore.rating = Sudoku.new.rating :=
  restore_spec Sudoku.new fun _ _ _ _ => Nat.zero_le 9

/-! ## C1: the PointingPair detector can never fire

Both `find_pointing_pair_in_rows` and `find_pointing_pair_in_cols` push the
cells they would clear into `candidates_affected` / `cells_affected` but
never into `candidates_about_to_be_removed`, which is what
`will_remove_candidates` (and `apply`) read. -/

theorem foldl_preserves_removed (f : RemovalResult → Nat → RemovalResult)
    (hf : ∀ res k, (f res k).candidates_about_to_be_removed =
      res.candidates_about_to_be_removed) :
    ∀ (l : List Nat) (res : RemovalResult),
      (l.foldl f res).candidates_about_to_be_removed =
        res.candidates_about_to_be_removed := by
  intro l
  induction l with
  | nil => intro res; rfl
  | cons x xs ih => intro res; rw [List.foldl_cons, ih, hf]

theorem pp_rows_push_removed (s : Sudoku) (num r box_col : Nat)
    (result : RemovalResult) :
    (Sudoku.pp_rows_push s num r box_col result).candidates_about_to_be_removed =
      result.candidates_about_to_be_removed := by
  unfold Sudoku.pp_rows_push
  apply foldl_preserves_removed
  intro res k
  dsimp only
  split <;> rfl

theorem pp_rows_inner_removed (s : Sudoku) (num row box_col : Nat) :
    ∀ (l : List Nat) (result : RemovalResult),
      (Sudoku.pp_rows_inner s num row box_col l result).1.candidates_about_to_be_removed =
        result.candidates_about_to_be_removed := by
  intro l
  induction l with
  | nil => intro result; rfl
  | cons r rest ih =>
    intro result
    simp only [Sudoku.pp_rows_inner]
    by_cases h : r = row
    · rw [if_pos h]
      exact ih result
    · rw [if_neg h]
      split
      · exact pp_rows_push_removed s num r box_col result
      · rw [ih, pp_rows_push_removed]

theorem pp_rows_step_removed (s : Sudoku) (row num : Nat)
    (result : RemovalResult) :
    (Sudoku.pp_rows_step s row num result).1.candidates_about_to_be_removed =
      result.candidates_about_to_be_removed := by
  unfold Sudoku.pp_rows_step
  dsimp only
  split
  · rfl
  · split
    · rfl
    · exact pp_rows_inner_removed s num row _ _ result

theorem pp_rows_nums_removed (s : Sudoku) (row : Nat) :
    ∀ (l : List Nat) (result : RemovalResult),
      (Sudoku.pp_rows_nums s row l result).1.candidates_about_to_be_removed =
        result.candidates_about_to_be_removed := by
  intro l
  induction l with
  | nil => intro result; rfl
  | cons num rest ih =>
    intro result
    have hstep := pp_rows_step_removed s row num result
    simp only [Sudoku.pp_rows_nums]
    rcases h : Sudoku.pp_rows_step s row num result with ⟨res1, b⟩
    rw [h] at hstep
    cases b
    · dsimp only
      rw [ih, hstep]
    · dsimp only
      exact hstep

theorem pp_rows_outer_removed (s : Sudoku) :
    ∀ (l : List Nat) (result : RemovalResult),
      (Sudoku.pp_rows_outer s l result).1.candidates_about_to_be_removed =
        result.candidates_about_to_be_removed := by
  intro l
  induction l with
  | nil => intro result; rfl
  | cons row rest ih =>
    intro result
    have hnums := pp_rows_nums_removed s row nums1to9 result
    simp only [Sudoku.pp_rows_outer]
    rcases h : Sudoku.pp_rows_nums s row nums1to9 result with ⟨res1, b⟩
    rw [h] at hnums
    cases b
    · dsimp only
      rw [ih, hnums]
    · dsimp only
      exact hnums

theorem find_pointing_pair_in_rows_removed (s : Sudoku) :
    s.find_pointing_pair_in_rows.candidates_about_to_be_removed = [] :=
  pp_rows_outer_removed s range9 RemovalResult.empty

theorem pp_cols_push_removed (s : Sudoku) (num c box_idx : Nat)
    (result : RemovalResult) :
    (Sudoku.pp_cols_push s num c box_idx result).candidates_about_to_be_removed =
      result.candidates_about_to_be_removed := by
  unfold Sudoku.pp_cols_push
  apply foldl_preserves_removed
  intro res k
  dsimp only
  split <;> rfl

theorem pp_cols_inner_removed (s : Sudoku) (num col box_idx : Nat) :
    ∀ (l : List Nat) (result : RemovalResult),
      (Sudoku.pp_cols_inner s num col box_idx l result).1.candidates_about_to_be_removed =
        result.candidates_about_to_be_removed := by
  intro l
  induction l with
  | nil => intro result; rfl
  | cons c rest ih =>
    intro result
    simp only [Sudoku.pp_cols_inner]
    by_cases h : c = col
    · rw [if_pos h]
      exact ih result
    · rw [if_neg h]
      split
      · exact pp_cols_push_removed s num c box_idx result
      · rw [ih, pp_cols_push_removed]

theorem pp_cols_step_removed (s : Sudoku) (col num : Nat)
    (result : RemovalResult) :
    (Sudoku.pp_cols_step s col num result).1.candidates_about_to_be_removed =
      result.candidates_about_to_be_removed := by
  unfold Sudoku.pp_cols_step
  dsimp only
  split
  · rfl
  · split
    · rfl
    · rw [pp_cols_inner_removed]

theorem pp_cols_nums_removed (s : Sudoku) (col : Nat) :
    ∀ (l : List Nat) (result : RemovalResult),
      (Sudoku.pp_cols_nums s col l result).1.candidates_about_to_be_removed =
        result.candidates_about_to_be_removed := by
  intro l
  induction l with
  | nil => intro result; rfl
  | cons num rest ih =>
    intro result
    have hstep := pp_cols_step_removed s col num result
    simp only [Sudoku.pp_cols_nums]
    rcases h : Sudoku.pp_cols_step s col num result with ⟨res1, b⟩
    rw [h] at hstep
    cases b
    · dsimp only
      rw [ih, hstep]
    · dsimp only
      exact hstep

theorem pp_cols_outer_removed (s : Sudoku) :
    ∀ (l : List Nat) (result : RemovalResult),
      (Sudoku.pp_cols_outer s l result).1.candidates_about_to_be_removed =
        result.candidates_about_to_be_removed := by
  intro l
  induction l with
  | nil => intro result; rfl
  | cons col rest ih =>
    intro result
    have hnums := pp_cols_nums_removed s col nums1to9 result
    simp only [Sudoku.pp_cols_outer]
    rcases h : Sudoku.pp_cols_nums s col nums1to9 result with ⟨res1, b⟩
    rw [h] at hnums
    cases b
    · dsimp only
      rw [ih, hnums]
    · dsimp only
      exact hnums

theorem find_pointing_pair_in_cols_removed (s : Sudoku) :
    s.find_pointing_pair_in_cols.candidates_about_to_be_removed = [] :=
  pp_cols_outer_removed s range9 RemovalResult.empty

/-- C1: the PointingPair detector never fires.  On *every* state its
`candidates_about_to_be_removed` set is empty (the scans populate only the
diagnostic `candidates_affected`/`cells_affected` fields), so it never
returns a nonempty removal set — even on `ppState`, where digit 5 forms a
pointing pair in row 0 with an eliminable candidate at (1,0) and the row
scan itself records affected cells. -/
theorem pointing_pair_never_fires :
    (∀ s : Sudoku,
      s.find_pointing_pair.removals.candidates_about_to_be_removed = []) ∧
    (Sudoku.find_pointing_pair_in_rows ppState).cells_affected ≠ [] := by
  constructor
  · intro s
    have hr := find_pointing_pair_in_rows_removed s
    have hc := find_pointing_pair_in_cols_removed s
    unfold Sudoku.find_pointing_pair
    dsimp only
    rw [show s.find_pointing_pair_in_rows.will_remove_candidates = false by
      rw [RemovalResult.will_remove_candidates, hr]; rfl]
    simpa using hc
  · decide

/-! ## C5: the last-digit row assertion can fail on permissive input -/

set_option maxRecDepth 1000000 in
/-- C5: on the permissively loaded, inconsistent board `dupPuzzle` (row 0 is
`112345670`), row 0 has exactly one empty cell but two missing digits, so
`assert_eq!(missing_digits.len(), 1)` in `find_last_digit_in_rows` fails —
the detector panics instead of returning an empty result, and the panic
propagates through `next_step`, the first driver step after loading. -/
theorem last_digit_assert_fails_on_duplicate_row :
    Sudoku.find_last_digit_in_rows dupState = none ∧
    Sudoku.next_step dupState = none := by
  constructor
  · rfl
  · rfl

/-! ## C2: the ledger increment of one driver step -/

theorem will_remove_eq_true_iff (r : RemovalResult) :
    r.will_remove_candidates = true ↔ r.candidates_about_to_be_removed ≠ [] := by
  unfold RemovalResult.will_remove_candidates
  cases r.candidates_about_to_be_removed <;> simp

/-- What one successful `next_step` call does: the board and the candidate
grid are untouched; when a strategy fires, its removal set is nonempty and
its ledger entry grows by the removal count; when nothing fires, the state
is returned unchanged. -/
theorem next_step_spec (s s1 : Sudoku) (r : StrategyResult)
    (h : s.next_step = some (s1, r)) :
    s1.board = s.board ∧ s1.candidates = s.candidates ∧
    (r.strategy ≠ Strategy.None →
      r.removals.candidates_about_to_be_removed ≠ [] ∧
      s1.rating r.strategy =
        s.rating r.strategy + r.removals.candidates_about_to_be_removed.length) ∧
    (r.strategy = Strategy.None →
      s1 = s ∧ r.removals.candidates_about_to_be_removed = []) := by
  unfold Sudoku.next_step at h
  dsimp only at h
  repeat' split at h
  all_goals
    first
    | exact Option.noConfusion h
    | (rw [Option.some.injEq, Prod.mk.injEq] at h
       obtain ⟨h1, h2⟩ := h
       subst h1
       subst h2
       refine ⟨rfl, rfl, fun hne => ⟨?_, ?_⟩, fun hN => ?_⟩
       · simp_all [will_remove_eq_true_iff]
       · simp [Sudoku.bump]
       · simp_all)
    | (rw [Option.some.injEq, Prod.mk.injEq] at h
       obtain ⟨h1, h2⟩ := h
       subst h1
       subst h2
       exact ⟨rfl, rfl, fun hne => absurd rfl hne, fun _ => ⟨rfl, rfl⟩⟩)

/-- What one successful `apply` call does: the firing strategy's ledger
entry grows by 1 exactly when a cell is set, the resolution reports the
removal count, and the candidate grid is the one left by the removal loop. -/
theorem apply_spec (s : Sudoku) (sr : StrategyResult) (s2 : Sudoku)
    (res : Resolution) (h : s.apply sr = some (s2, res)) :
    s2.rating sr.strategy =
      s.rating sr.strategy + (if sr.removals.sets_cell.isSome then 1 else 0) ∧
    res.nums_removed = sr.removals.candidates_about_to_be_removed.length ∧
    Sudoku.removeNotes s.candidates sr.removals.candidates_about_to_be_removed =
      some s2.candidates := by
  unfold Sudoku.apply at h
  dsimp only at h
  split at h
  · exact Option.noConfusion h
  · rename_i cands1 hrm
    split at h
    · rw [Option.some.injEq, Prod.mk.injEq] at h
      obtain ⟨h1, h2⟩ := h
      subst h1
      subst h2
      rename_i hcell
      refine ⟨by simp [hcell], rfl, hrm⟩
    · rw [Option.some.injEq, Prod.mk.injEq] at h
      obtain ⟨h1, h2⟩ := h
      subst h1
      subst h2
      rename_i cell hcell
      refine ⟨by simp [hcell, Sudoku.bump], rfl, hrm⟩

set_option maxRecDepth 1000000 in
set_option maxHeartbeats 4000000 in
/-- C2 counterexample: in the first driver step on `ldState` (row 0 is
`123456780`), LastDigit fires with a placement, and the ledger entry goes
from 0 to 14 — `next_step` adds the 13 removals and `apply` adds 1 more —
not to 1 as the claim states for placement steps. -/
theorem driver_step_rating_counterexample :
    ((Sudoku.next_step ldState).bind fun p =>
        (p.1.apply p.2).map fun q =>
          (p.2.strategy, p.2.removals.sets_cell.isSome, q.1.rating Strategy.LastDigit)) =
      some (Strategy.LastDigit, true, 14) ∧
    ldState.rating Strategy.LastDigit = 0 ∧ (14 : Nat) ≠ 0 + 1 := by
  refine ⟨by decide, rfl, by decide⟩

/-- C2 (amended): for every step taken by the driver loop (one `next_step`
followed by `apply`), the ledger entry of the firing strategy increases by
`|candidates_to_remove| + 1` when the step performs a placement
(`sets_cell` present), and by exactly `|candidates_to_remove|` when the
step is elimination-only. -/
theorem driver_step_rating_increment (s s1 s2 : Sudoku) (r : StrategyResult)
    (res : Resolution)
    (h1 : s.next_step = some (s1, r)) (hne : r.strategy ≠ Strategy.None)
    (h2 : s1.apply r = some (s2, res)) :
    s2.rating r.strategy =
      s.rating r.strategy + r.removals.candidates_about_to_be_removed.length +
        (if r.removals.sets_cell.isSome then 1 else 0) := by
  obtain ⟨-, -, hfire, -⟩ := next_step_spec s s1 r h1
  obtain ⟨hr2, -, -⟩ := apply_spec s1 r s2 res h2
  rw [hr2, (hfire hne).2]

set_option maxRecDepth 1000000 in
set_option maxHeartbeats 4000000 in
/-- C2 witness: the first driver step on `ldState`. -/
theorem driver_step_rating_increment_witness :
    Sudoku.next_step ldState = some (ldStep1.1, ldStep1.2) ∧
    ldStep1.2.strategy ≠ Strategy.None ∧
    ldStep1.1.apply ldStep1.2 = some (ldStep2.1, ldStep2.2) ∧
    ldStep2.1.rating ldStep1.2.strategy =
      ldState.rating ldStep1.2.strategy +
        ldStep1.2.removals.candidates_about_to_be_removed.length +
        (if ldStep1.2.removals.sets_cell.isSome then 1 else 0) :=
  ⟨rfl, by decide, rfl,
    driver_step_rating_increment ldState ldStep1.1 ldStep2.1 ldStep1.2 ldStep2.2
      rfl (by decide) rfl⟩

/-! ## C4: the driver trajectory is not a function of the input alone -/

set_option maxRecDepth 1000000 in
set_option maxHeartbeats 4000000 in
/-- C4: two runs on the same 81-digit input puzzle `hsPuzzle` can make
different placements.  `hsStateA` and `hsStateB` are both the state after
`from_string` and `calc_all_notes` — same board, and cell-for-cell *equal
candidate sets* (duplicate-free, `hsStateA` moreover list-equal to the
computed grid); they differ only in the `HashSet` iteration order of cell
(0,7), which Rust does not fix across runs.  The first `next_step` places
digit 8 from one order and digit 9 from the other. -/
theorem hidden_single_depends_on_iteration_order :
    hsStateA.board = (Sudoku.new.from_string hsPuzzle).calc_all_notes.board ∧
    (range9.map fun r => range9.map fun c =>
        (Sudoku.new.from_string hsPuzzle).calc_all_notes.candidates r c) =
      (range9.map fun r => range9.map fun c => hsStateA.candidates r c) ∧
    (range9.all fun r => range9.all fun c =>
        listSetEq (hsStateB.candidates r c) (hsStateA.candidates r c) &&
        decide (hsStateA.candidates r c).Nodup &&
        decide (hsStateB.candidates r c).Nodup) = true ∧
    ((Sudoku.next_step hsStateA).map fun p => (p.2.strategy, p.2.removals.sets_cell)) =
      some (Strategy.HiddenSingle, some ⟨0, 7, 8⟩) ∧
    ((Sudoku.next_step hsStateB).map fun p => (p.2.strategy, p.2.removals.sets_cell)) =
      some (Strategy.HiddenSingle, some ⟨0, 7, 9⟩) := by
  refine ⟨rfl, by decide, by decide, by decide, by decide⟩

/-! ## C6: termination of the driver loop -/


theorem totalCandidates_update2 (cs : Nat → Nat → List Nat) (r c : Nat)
    (hr : r < 9) (hc : c < 9) (v : List Nat) :
    totalCandidates (update2 cs r c v) + (cs r c).length =
      totalCandidates cs + v.length := by
  unfold totalCandidates
  rw [← Finset.add_sum_erase _ _ (Finset.mem_range.mpr hr),
      ← Finset.add_sum_erase _ (fun i => ∑ j ∈ Finset.range 9, (cs i j).length)
        (Finset.mem_range.mpr hr)]
  have houter : ∑ i ∈ (Finset.range 9).erase r, ∑ j ∈ Finset.range 9,
      (update2 cs r c v i j).length =
      ∑ i ∈ (Finset.range 9).erase r, ∑ j ∈ Finset.range 9, (cs i j).length := by
    apply Finset.sum_congr rfl
    intro i hi
    apply Finset.sum_congr rfl
    intro j _
    have hir : i ≠ r := (Finset.mem_erase.mp hi).1
    unfold update2
    rw [if_neg (by tauto)]
  rw [houter]
  rw [← Finset.add_sum_erase _ _ (Finset.mem_range.mpr hc),
      ← Finset.add_sum_erase _ (fun j => (cs r j).length) (Finset.mem_range.mpr hc)]
  have hinner : ∑ j ∈ (Finset.range 9).erase c, (update2 cs r c v r j).length =
      ∑ j ∈ (Finset.range 9).erase c, (cs r j).length := by
    apply Finset.sum_congr rfl
    intro j hj
    have hjc : j ≠ c := (Finset.mem_erase.mp hj).1
    unfold update2
    rw [if_neg (by tauto)]
  rw [hinner]
  have hrc : update2 cs r c v r c = v := by
    unfold update2
    rw [if_pos ⟨rfl, rfl⟩]
  rw [hrc]
  omega

theorem removeNotes_spec :
    ∀ (l : List Candidate) (cs cs2 : Nat → Nat → List Nat),
      (∀ r c, 9 ≤ r ∨ 9 ≤ c → cs r c = []) →
      Sudoku.removeNotes cs l = some cs2 →
      totalCandidates cs2 + l.length = totalCandidates cs ∧
      (∀ r c, 9 ≤ r ∨ 9 ≤ c → cs2 r c = []) := by
  intro l
  induction l with
  | nil =>
    intro cs cs2 hout h
    rw [Sudoku.removeNotes, Option.some.injEq] at h
    subst h
    refine ⟨?_, hout⟩
    simp
  | cons note rest ih =>
    intro cs cs2 hout h
    rw [Sudoku.removeNotes] at h
    split at h
    · rename_i hmem
      have hmm : note.num ∈ cs note.row note.col := by
        simpa using hmem
      have hin : note.row < 9 ∧ note.col < 9 := by
        by_contra hcon
        have hempty : cs note.row note.col = [] := hout note.row note.col (by omega)
        rw [hempty] at hmm
        exact absurd hmm (List.not_mem_nil note.num)
      have hout2 : ∀ r c, 9 ≤ r ∨ 9 ≤ c →
          update2 cs note.row note.col ((cs note.row note.col).erase note.num) r c = [] := by
        intro r c hrc
        unfold update2
        rw [if_neg]
        · exact hout r c hrc
        · rintro ⟨rfl, rfl⟩
          omega
      obtain ⟨ih1, ih2⟩ := ih _ cs2 hout2 h
      refine ⟨?_, ih2⟩
      have hupd := totalCandidates_update2 cs note.row note.col hin.1 hin.2
        ((cs note.row note.col).erase note.num)
      have herase : ((cs note.row note.col).erase note.num).length =
          (cs note.row note.col).length - 1 := List.length_erase_of_mem hmm
      have hpos : 0 < (cs note.row note.col).length := List.length_pos.mpr
        (by rintro hnil; rw [hnil] at hmm; exact absurd hmm (List.not_mem_nil note.num))
      simp only [List.length_cons]
      omega
    · exact Option.noConfusion h

/-- One applied firing step strictly decreases the total candidate count. -/
theorem apply_decreases (s : Sudoku) (sr : StrategyResult) (s2 : Sudoku)
    (res : Resolution)
    (hout : candsOutsideGridEmpty s)
    (hne : sr.removals.candidates_about_to_be_removed ≠ [])
    (h : s.apply sr = some (s2, res)) :
    totalCandidates s2.candidates < totalCandidates s.candidates ∧
    candsOutsideGridEmpty s2 := by
  obtain ⟨-, -, hrm⟩ := apply_spec s sr s2 res h
  obtain ⟨h1, h2⟩ := removeNotes_spec _ _ _ hout hrm
  have hlen : 0 < sr.removals.candidates_about_to_be_removed.length :=
    List.length_pos.mpr hne
  exact ⟨by omega, h2⟩

theorem solveLoop_fuel_sufficient :
    ∀ (n : Nat) (s : Sudoku), candsOutsideGridEmpty s →
      totalCandidates s.candidates < n →
      solveLoop n s ≠ LoopResult.outOfFuel := by
  intro n
  induction n with
  | zero => intro s _ hlt; omega
  | succ n ih =>
    intro s hout hlt
    rw [solveLoop]
    by_cases hsolved : s.is_solved = true
    · rw [if_pos hsolved]
      intro hcon
      exact LoopResult.noConfusion hcon
    · rw [if_neg hsolved]
      rcases hstep : s.next_step with _ | ⟨s1, r⟩
      · intro hcon
        exact LoopResult.noConfusion hcon
      · dsimp only
        by_cases hneq : r.strategy = Strategy.None
        · rw [if_pos hneq]
          intro hcon
          exact LoopResult.noConfusion hcon
        · rw [if_neg hneq]
          rcases happly : s1.apply r with _ | ⟨s2, res⟩
          · intro hcon
            exact LoopResult.noConfusion hcon
          · dsimp only
            obtain ⟨-, hcands, hfire, -⟩ := next_step_spec s s1 r hstep
            have hout1 : candsOutsideGridEmpty s1 := by
              unfold candsOutsideGridEmpty
              rw [hcands]
              exact hout
            obtain ⟨hlt2, hout2⟩ :=
              apply_decreases s1 r s2 res hout1 (hfire hneq).1 happly
            apply ih s2 hout2
            have heq : totalCandidates s1.candidates = totalCandidates s.candidates := by
              rw [hcands]
            omega



theorem calc_all_notes_outside (s : Sudoku) (hout : candsOutsideGridEmpty s) :
    candsOutsideGridEmpty s.calc_all_notes := by
  intro r c hrc
  show (if r < 9 ∧ c < 9 ∧ s.board r c = 0 then _ else s.candidates r c) = []
  rw [if_neg]
  · exact hout r c hrc
  · rintro ⟨h1, h2, -⟩
    omega

/-- C6: the driver loop of `solve_like_a_human` terminates on every input:
every applied step strictly decreases the total candidate count (each
firing step's nonempty removal set is deleted from the grid), so the loop
runs out of steps to take before it runs out of the `totalCandidates + 1`
fuel bound. -/
theorem solve_like_a_human_terminates :
    (∀ s : Sudoku, candsOutsideGridEmpty s →
      s.solve_like_a_human ≠ LoopResult.outOfFuel) ∧
    (∀ (s s1 s2 : Sudoku) (r : StrategyResult) (res : Resolution),
      candsOutsideGridEmpty s →
      s.next_step = some (s1, r) → r.strategy ≠ Strategy.None →
      s1.apply r = some (s2, res) →
      totalCandidates s2.candidates < totalCandidates s.candidates) := by
  constructor
  · intro s hout
    unfold Sudoku.solve_like_a_human
    apply solveLoop_fuel_sufficient
    · intro r c hrc
      exact calc_all_notes_outside s hout r c hrc
    · exact Nat.lt_succ_self _
  · intro s s1 s2 r res hout hstep hneq happly
    obtain ⟨-, hcands, hfire, -⟩ := next_step_spec s s1 r hstep
    have hout1 : candsOutsideGridEmpty s1 := by
      unfold candsOutsideGridEmpty
      rw [hcands]
      exact hout
    have hdec := (apply_decreases s1 r s2 res hout1 (hfire hneq).1 happly).1
    have heq : totalCandidates s1.candidates = totalCandidates s.candidates := by
      rw [hcands]
    omega

/-- C6 witness: the loop on the already solved test board. -/
theorem solve_like_a_human_terminates_witness :
    solvedState.solve_like_a_human ≠ LoopResult.outOfFuel :=
  solve_like_a_human_terminates.1 solvedState fun _ _ _ => rfl


/-! ## C7: the HiddenPair scan order -/


theorem hp_box_locations_eq (s : Sudoku) (h1 : noCandsAtFilledCells s)
    (h2 : candsOutsideGridEmpty s) :
    Sudoku.hp_box_locations s = specBoxLocations s := by
  funext sr sc d
  unfold Sudoku.hp_box_locations specBoxLocations
  apply List.filter_congr
  intro p _
  by_cases hb : s.board p.1 p.2 = 0
  · simp [hb]
  · have hempty : s.candidates p.1 p.2 = [] := by
      by_cases hr : p.1 < 9 ∧ p.2 < 9
      · exact h1 p.1 p.2 hr.1 hr.2 hb
      · exact h2 p.1 p.2 (by omega)
    simp [hb, hempty]

theorem hp_row_locations_eq (s : Sudoku) (h1 : noCandsAtFilledCells s)
    (h2 : candsOutsideGridEmpty s) :
    Sudoku.hp_row_locations s = specRowLocations s := by
  funext row d
  unfold Sudoku.hp_row_locations specRowLocations
  apply List.filter_congr
  intro col _
  by_cases hb : s.board row col = 0
  · simp [hb]
  · have hempty : s.candidates row col = [] := by
      by_cases hr : row < 9 ∧ col < 9
      · exact h1 row col hr.1 hr.2 hb
      · exact h2 row col (by omega)
    simp [hb, hempty]

theorem hp_col_locations_eq (s : Sudoku) (h1 : noCandsAtFilledCells s)
    (h2 : candsOutsideGridEmpty s) :
    Sudoku.hp_col_locations s = specColLocations s := by
  funext col d
  unfold Sudoku.hp_col_locations specColLocations
  apply List.filter_congr
  intro row _
  by_cases hb : s.board row col = 0
  · simp [hb]
  · have hempty : s.candidates row col = [] := by
      by_cases hr : row < 9 ∧ col < 9
      · exact h1 row col hr.1 hr.2 hb
      · exact h2 row col (by omega)
    simp [hb, hempty]

theorem hp_box_pairs_eq (s : Sudoku) (h1 : noCandsAtFilledCells s)
    (h2 : candsOutsideGridEmpty s) :
    Sudoku.hp_box_pairs s = specBoxPairs s := by
  funext sr sc
  unfold Sudoku.hp_box_pairs specBoxPairs
  rw [hp_box_locations_eq s h1 h2]

theorem hp_row_pairs_eq (s : Sudoku) (h1 : noCandsAtFilledCells s)
    (h2 : candsOutsideGridEmpty s) :
    Sudoku.hp_row_pairs s = specRowPairs s := by
  funext row
  unfold Sudoku.hp_row_pairs specRowPairs
  rw [hp_row_locations_eq s h1 h2]

theorem hp_col_pairs_eq (s : Sudoku) (h1 : noCandsAtFilledCells s)
    (h2 : candsOutsideGridEmpty s) :
    Sudoku.hp_col_pairs s = specColPairs s := by
  funext col
  unfold Sudoku.hp_col_pairs specColPairs
  rw [hp_col_locations_eq s h1 h2]

theorem hp_box_scan_eq (s : Sudoku) (h1 : noCandsAtFilledCells s)
    (h2 : candsOutsideGridEmpty s) :
    ∀ l, Sudoku.find_hidden_pair_in_rows_aux s l = specHiddenPairBoxScanAux s l := by
  intro l
  induction l with
  | nil => rfl
  | cons p rest ih =>
    obtain ⟨br, bc⟩ := p
    simp only [Sudoku.find_hidden_pair_in_rows_aux, specHiddenPairBoxScanAux]
    rw [hp_box_pairs_eq s h1 h2, ih]

theorem hp_row_scan_eq (s : Sudoku) (h1 : noCandsAtFilledCells s)
    (h2 : candsOutsideGridEmpty s) :
    ∀ l, Sudoku.find_hidden_pair_in_cols_aux s l = specHiddenPairRowScanAux s l := by
  intro l
  induction l with
  | nil => rfl
  | cons row rest ih =>
    simp only [Sudoku.find_hidden_pair_in_cols_aux, specHiddenPairRowScanAux]
    rw [hp_row_pairs_eq s h1 h2, ih]

theorem hp_col_scan_eq (s : Sudoku) (h1 : noCandsAtFilledCells s)
    (h2 : candsOutsideGridEmpty s) :
    ∀ l, Sudoku.find_hidden_pair_in_boxes_aux s l = specHiddenPairColScanAux s l := by
  intro l
  induction l with
  | nil => rfl
  | cons col rest ih =>
    simp only [Sudoku.find_hidden_pair_in_boxes_aux, specHiddenPairColScanAux]
    rw [hp_col_pairs_eq s h1 h2, ih]

/-- C7: on every state satisfying the candidate-grid invariants (filled
cells carry no candidates; no cells outside the grid), the HiddenPair
detector equals the spec-side scan `specHiddenPair`, which scans groups in
the order boxes first, then rows, then columns, and within that order
fires on the first hidden pair (two digits whose candidate-position lists
coincide and have length 2) that yields at least one actual elimination of
another digit from those two cells.  (In the source the scans live in
functions misleadingly named `_in_rows` (boxes), `_in_cols` (rows) and
`_in_boxes` (columns).) -/
theorem find_hidden_pair_matches_spec_scan (s : Sudoku)
    (h1 : noCandsAtFilledCells s) (h2 : candsOutsideGridEmpty s) :
    s.find_hidden_pair = specHiddenPair s := by
  unfold Sudoku.find_hidden_pair specHiddenPair
  rw [show s.find_hidden_pair_in_rows = specHiddenPairBoxScan s from
        hp_box_scan_eq s h1 h2 Sudoku.boxRCList,
      show s.find_hidden_pair_in_cols = specHiddenPairRowScan s from
        hp_row_scan_eq s h1 h2 range9,
      show s.find_hidden_pair_in_boxes = specHiddenPairColScan s from
        hp_col_scan_eq s h1 h2 range9]

/-- C7 witness: on `hpState` the detector agrees with the spec scan and
actually fires (the hidden pair 1, 2 in box 0 eliminates digit 3 from
cells (0,0) and (0,1)). -/
theorem find_hidden_pair_matches_spec_scan_witness :
    Sudoku.find_hidden_pair hpState = specHiddenPair hpState ∧
    (Sudoku.find_hidden_pair hpState).removals.candidates_about_to_be_removed =
      [⟨0, 0, 3⟩, ⟨0, 1, 3⟩] := by
  constructor
  · apply find_hidden_pair_matches_spec_scan
    · intro r c _ _ hb
      exact absurd rfl hb
    · intro r c hrc
      show (if r = 0 ∧ c ≤ 1 then [1, 2, 3]
            else if r < 3 ∧ c < 3 then [3, 4, 5] else []) = []
      rw [if_neg (by omega), if_neg (by omega)]
  · decide


end SudokuRater
